import Mathlib

/-!
# Twilio media stream to OpenAI Realtime bridge (geppettoaudio.go)

A shallow embedding of the duplex relay of `geppettoaudio.go`:

* `handleTwilioMessages` (Inbound Relay, telephony to AI),
* `handleOpenAIMessages` (Outbound Relay, AI to telephony),
* `sendSessionUpdate` and the orchestrator `handleMediaStream`,
* the part of Go's `encoding/base64` (`StdEncoding.DecodeString`,
  `StdEncoding.EncodeToString`) that the Outbound Relay calls.

Library calls whose result the program only inspects (`ReadMessage`,
`json.Unmarshal`, `WriteJSON`, `Upgrade`, `Dial`) are inputs of the model: every
loop iteration receives the outcome of its read and of its (possible) write.
The two relay goroutines and the orchestrator are modelled as an interleaving
chosen by a schedule: an iteration of the Inbound Relay is one step, and an
iteration of the Outbound Relay is two steps, its `select` on `done` and the
return of the `ReadMessage` it then waits in.
-/

namespace Geppetto

/-! ## Go `encoding/base64`, `StdEncoding` -/

/-- The alphabet `encodeStd` of Go's `encoding/base64`. -/
def encodeStd : List Char :=
  "ABCDEFGHIJKLMNOPQRSTUVWXYZabcdefghijklmnopqrstuvwxyz0123456789+/".data

/-- The table `enc.encode`: `enc.encode[v]` for a 6-bit value `v`. -/
def encode (v : Nat) : Char := encodeStd.getD v 'A'

/-- The table `enc.decodeMap`: `0xff` everywhere except `decodeMap[encode[i]] = i`. -/
def decodeMap (c : Char) : Nat :=
  if encodeStd.indexOf c < 64 then encodeStd.indexOf c else 0xff

/-- The padding character `StdPadding` of `StdEncoding`. -/
def padChar : Char := '='

/-- The test `in == '\n' || in == '\r'` of `decodeQuantum`. -/
def isNewline (c : Char) : Bool := c == '\n' || c == '\r'

/-- The loops `for si < len(src) && (src[si] == '\n' || src[si] == '\r') { si++ }`. -/
def skipNewlines : List Char → List Char
  | [] => []
  | c :: cs => if isNewline c then skipNewlines cs else c :: cs

/-- The loop `for j := 0; j < len(dbuf); j++` of `decodeQuantum`, entered at
index `j` with the sextets read so far in `dbuf`, on the unread input.  The
result is `none` when the Go code returns or records a `CorruptInputError`, and
otherwise `(dbuf, dlen, rest)`; `dlen = 0` stands for the early
`return si, 0, nil` taken when the input ends at `j == 0`. -/
def decodeQuantumLoop (j : Nat) (dbuf : List Nat) :
    List Char → Option (List Nat × Nat × List Char)
  | [] => if j = 0 then some (dbuf, 0, []) else none
  | c :: cs =>
    if decodeMap c ≠ 0xff then
      if j + 1 < 4 then decodeQuantumLoop (j + 1) (dbuf.set j (decodeMap c)) cs
      else some (dbuf.set j (decodeMap c), 4, cs)
    else if isNewline c then decodeQuantumLoop j dbuf cs
    else if c ≠ padChar then none
    else
      match j with
      | 0 => none
      | 1 => none
      | 2 =>
        match skipNewlines cs with
        | [] => none
        | d :: ds =>
          if d ≠ padChar then none
          else if skipNewlines ds ≠ [] then none
          else some (dbuf, 2, skipNewlines ds)
      | _ =>
        if skipNewlines cs ≠ [] then none
        else some (dbuf, j, skipNewlines cs)

/-- Go's `(*Encoding).decodeQuantum` for a padded encoding: one quantum of up to
four sextets is turned into up to three bytes.  With `strict` (the encoding
returned by `Strict()`) non-zero trailing padding bits are an error;
`StdEncoding` has `strict = false`.  The result is the decoded bytes and the
unread input, or `none` for a `CorruptInputError`. -/
def decodeQuantum (strict : Bool) (src : List Char) : Option (List Nat × List Char) :=
  match decodeQuantumLoop 0 [0, 0, 0, 0] src with
  | none => none
  | some (dbuf, dlen, rest) =>
    let val := dbuf.getD 0 0 <<< 18 ||| dbuf.getD 1 0 <<< 12 ||| dbuf.getD 2 0 <<< 6
      ||| dbuf.getD 3 0
    let b2 := (val >>> 0) % 256
    let b1 := (val >>> 8) % 256
    let b0 := (val >>> 16) % 256
    match dlen with
    | 0 => some ([], rest)
    | 4 => some ([b0, b1, b2], rest)
    | 3 => if strict && b2 ≠ 0 then none else some ([b0, b1], rest)
    | _ => if strict && (b1 ≠ 0 || b2 ≠ 0) then none else some ([b0], rest)

/-- The loop `for si < len(src)` of Go's `(*Encoding).Decode`, one
`decodeQuantum` per round (the 8- and 4-character fast paths of `Decode` compute
the same bytes as `decodeQuantum` and fall back to it).  Every round on a
non-empty input consumes at least one character, so `fuel = len(src)` rounds
always suffice (`decodeLoop_fuel`). -/
def decodeLoop (strict : Bool) : Nat → List Char → Option (List Nat)
  | _, [] => some []
  | 0, _ :: _ => none
  | fuel + 1, c :: cs =>
    match decodeQuantum strict (c :: cs) with
    | none => none
    | some (bs, rest) =>
      match decodeLoop strict fuel rest with
      | none => none
      | some out => some (bs ++ out)

/-- Go's `DecodeString` of an encoding with the standard alphabet and padding;
`none` is a non-nil error. -/
def DecodeStringWith (strict : Bool) (s : String) : Option (List Nat) :=
  decodeLoop strict s.data.length s.data

/-- The call `base64.StdEncoding.DecodeString(s)`. -/
def DecodeString (s : String) : Option (List Nat) := DecodeStringWith false s

/-- Go's `(*Encoding).Encode` for `StdEncoding`, on the bytes of `src`. -/
def Encode : List Nat → List Char
  | [] => []
  | [b0] =>
    let val := b0 <<< 16
    [encode (val >>> 18 &&& 0x3F), encode (val >>> 12 &&& 0x3F), padChar, padChar]
  | [b0, b1] =>
    let val := b0 <<< 16 ||| b1 <<< 8
    [encode (val >>> 18 &&& 0x3F), encode (val >>> 12 &&& 0x3F), encode (val >>> 6 &&& 0x3F),
      padChar]
  | b0 :: b1 :: b2 :: rest =>
    let val := b0 <<< 16 ||| b1 <<< 8 ||| b2
    encode (val >>> 18 &&& 0x3F) :: encode (val >>> 12 &&& 0x3F) :: encode (val >>> 6 &&& 0x3F)
      :: encode (val &&& 0x3F) :: Encode rest

/-- The call `base64.StdEncoding.EncodeToString(src)`. -/
def EncodeToString (src : List Nat) : String := String.mk (Encode src)

/-! ## JSON values and the messages on the two links -/

/-- A JSON value as `encoding/json` decodes it into `interface{}` and as
`WriteJSON` serialises a Go value: `null` is the nil interface, `num` a
`float64`, `obj` a `map[string]...` or a struct, listed with its JSON keys. -/
inductive JVal where
  | null
  | bool (b : Bool)
  | num (x : ℚ)
  | str (s : String)
  | arr (xs : List JVal)
  | obj (kvs : List (String × JVal))

/-- The index expression `m[k]` on a `map[string]interface{}`: the nil interface
when the key is absent. -/
def index (m : List (String × JVal)) (k : String) : JVal :=
  (m.lookup k).getD JVal.null

/-- The member `k` of a JSON object, `null` on anything else. -/
def JVal.field (v : JVal) (k : String) : JVal :=
  match v with
  | JVal.obj kvs => index kvs k
  | _ => JVal.null

/-- The comparison `v != nil` of an interface value. -/
def JVal.notNil : JVal → Bool
  | JVal.null => false
  | _ => true

/-- The comparison `v == s` of an interface value with a string constant: true
only when the dynamic type is `string` and the values agree. -/
def JVal.eqString (v : JVal) (s : String) : Bool :=
  match v with
  | JVal.str t => t == s
  | _ => false

/-- The type assertion `x, ok := v.(string)`: the zero value `""` and `false`
when the dynamic type is not `string`. -/
def JVal.assertString : JVal → String × Bool
  | JVal.str t => (t, true)
  | _ => ("", false)

/-- The anonymous struct of the field `Media` of `TwilioMessage`. -/
structure MediaField where
  Payload : String

/-- The anonymous struct of the field `Start` of `TwilioMessage`. -/
structure StartField where
  StreamSid : String

/-- The struct `TwilioMessage`. -/
structure TwilioMessage where
  Event : String
  Media : MediaField
  Start : StartField

/-- The anonymous struct of the field `TurnDetection`; `Type_` is its field `Type`. -/
structure TurnDetectionField where
  Type_ : String

/-- The anonymous struct of the field `Session` of `SessionUpdate`. -/
structure SessionField where
  TurnDetection : TurnDetectionField
  InputAudioFormat : String
  OutputAudioFormat : String
  Voice : String
  Instructions : String
  Modalities : List String
  Temperature : ℚ

/-- The struct `SessionUpdate` (`Type_` is its field `Type`); `Temperature` is a `float64` in the source and
is kept here as the exact decimal value of its literal. -/
structure SessionUpdate where
  Type_ : String
  Session : SessionField

/-- The JSON that `WriteJSON` produces for a `SessionUpdate`, following the
`json:"..."` tags of the struct. -/
def SessionUpdate.toJSON (u : SessionUpdate) : JVal :=
  JVal.obj [
    ("type", JVal.str u.Type_),
    ("session", JVal.obj [
      ("turn_detection", JVal.obj [("type", JVal.str u.Session.TurnDetection.Type_)]),
      ("input_audio_format", JVal.str u.Session.InputAudioFormat),
      ("output_audio_format", JVal.str u.Session.OutputAudioFormat),
      ("voice", JVal.str u.Session.Voice),
      ("instructions", JVal.str u.Session.Instructions),
      ("modalities", JVal.arr (u.Session.Modalities.map JVal.str)),
      ("temperature", JVal.num u.Session.Temperature)])]

/-- The constant `systemMessage` (a raw string literal spanning three lines). -/
def systemMessage : String :=
  "You are Samantha. You are a helpful and bubbly AI assistant who loves to chat about \n        anything the user is interested in and is prepared to offer them facts. \n        Always stay positive, but work in a joke when appropriate."

/-- The constant `voice`. -/
def voice : String := "alloy"

/-- The variable `logEventTypes`. -/
def logEventTypes : List String := [
  "response.content.done",
  "rate_limits.updated",
  "response.done",
  "input_audio_buffer.committed",
  "input_audio_buffer.speech_stopped",
  "input_audio_buffer.speech_started",
  "session.created"]

/-! ## Effects -/

/-- What a goroutine does to the outside world, in program order.  A write
carries the value handed to `WriteJSON` and whether the write succeeded; a log
entry carries the format string of its `log.Printf`. -/
inductive Op where
  | readTwilio
  | readOpenAI
  | writeOpenAI (v : JVal) (ok : Bool)
  | writeTwilio (v : JVal) (ok : Bool)
  | log (fmt : String)
  | closeDone
  | closeTwilio
  | closeOpenAI

/-- A write on either link. -/
def Op.isWrite : Op → Bool
  | Op.writeOpenAI _ _ => true
  | Op.writeTwilio _ _ => true
  | _ => false

/-- A read or a write on either link. -/
def Op.touchesLink : Op → Bool
  | Op.readTwilio => true
  | Op.readOpenAI => true
  | Op.writeOpenAI _ _ => true
  | Op.writeTwilio _ _ => true
  | _ => false

/-- The operation `close(done)`. -/
def Op.isCloseDone : Op → Bool
  | Op.closeDone => true
  | _ => false

/-- The operation `twilioConn.Close()`. -/
def Op.isCloseTwilio : Op → Bool
  | Op.closeTwilio => true
  | _ => false

/-- The operation `openAIConn.Close()`. -/
def Op.isCloseOpenAI : Op → Bool
  | Op.closeOpenAI => true
  | _ => false

/-- The values written to the Telephony Link, in order. -/
def twilioFrames : List Op → List JVal
  | [] => []
  | Op.writeTwilio v _ :: ops => v :: twilioFrames ops
  | _ :: ops => twilioFrames ops

/-- The values written to the AI Link, in order. -/
def openAICommands : List Op → List JVal
  | [] => []
  | Op.writeOpenAI v _ :: ops => v :: openAICommands ops
  | _ :: ops => openAICommands ops

/-! ## The two relays -/

/-- Outcome of `twilioConn.ReadMessage()` followed by `json.Unmarshal` into a
`TwilioMessage`. -/
inductive TwilioRead where
  | readErr
  | badJSON
  | msg (m : TwilioMessage)

/-- Outcome of `openAIConn.ReadMessage()` followed by `json.Unmarshal` into a
`map[string]interface{}`. -/
inductive OpenAIRead where
  | readErr
  | badJSON
  | msg (response : List (String × JVal))

/-- Result of one pass through the body of a relay loop: the effects, the value
of `*streamSid` afterwards, and whether the pass ended in `return`. -/
structure Iter where
  ops : List Op
  streamSid : String
  exit : Bool

/-- One pass through the body of the `for` loop of `handleTwilioMessages`, with
`*streamSid = streamSid` on entry; `writeOk` is the outcome of `WriteJSON` if
the pass reaches it. -/
def twilioIteration (streamSid : String) (r : TwilioRead) (writeOk : Bool) : Iter :=
  match r with
  | TwilioRead.readErr =>
    ⟨[Op.readTwilio, Op.log "Error reading from Twilio: %v"], streamSid, true⟩
  | TwilioRead.badJSON =>
    ⟨[Op.readTwilio, Op.log "Error unmarshaling Twilio message: %v"], streamSid, false⟩
  | TwilioRead.msg twilioMsg =>
    if twilioMsg.Event = "media" then
      let audioAppend := JVal.obj [
        ("type", JVal.str "input_audio_buffer.append"),
        ("audio", JVal.str twilioMsg.Media.Payload)]
      if writeOk then
        ⟨[Op.readTwilio, Op.writeOpenAI audioAppend true], streamSid, false⟩
      else
        ⟨[Op.readTwilio, Op.writeOpenAI audioAppend false, Op.log "Error sending to OpenAI: %v"],
          streamSid, true⟩
    else if twilioMsg.Event = "start" then
      ⟨[Op.readTwilio, Op.log "Stream started: %s"], twilioMsg.Start.StreamSid, false⟩
    else
      ⟨[Op.readTwilio], streamSid, false⟩

/-- Result of running a relay on a finite list of link outcomes: `exited` is
false when the relay is still in its loop, waiting in `ReadMessage`. -/
structure RelayRun where
  ops : List Op
  streamSid : String
  exited : Bool

/-- The function `handleTwilioMessages` run on the successive outcomes of its
reads and writes; `defer close(done)` runs when the function returns. -/
def handleTwilioMessages (streamSid : String) : List (TwilioRead × Bool) → RelayRun
  | [] => ⟨[], streamSid, false⟩
  | (r, writeOk) :: rest =>
    let it := twilioIteration streamSid r writeOk
    if it.exit then ⟨it.ops ++ [Op.closeDone], it.streamSid, true⟩
    else
      let run := handleTwilioMessages it.streamSid rest
      ⟨it.ops ++ run.ops, run.streamSid, run.exited⟩

/-- The block "Log specific event types" of `handleOpenAIMessages`. -/
def logEvents (response : List (String × JVal)) : List Op :=
  match (index response "type").assertString with
  | (responseType, true) =>
    (logEventTypes.filter fun eventType => responseType == eventType).map
      fun _ => Op.log "Received event: %s %v"
  | (_, false) => []

/-- One pass through the `default` branch of the `select` of
`handleOpenAIMessages`, with `*streamSid = streamSid`. -/
def openaiIteration (streamSid : String) (r : OpenAIRead) (writeOk : Bool) : Iter :=
  match r with
  | OpenAIRead.readErr =>
    ⟨[Op.readOpenAI, Op.log "Error reading from OpenAI: %v"], streamSid, true⟩
  | OpenAIRead.badJSON =>
    ⟨[Op.readOpenAI, Op.log "Error unmarshaling OpenAI message: %v"], streamSid, false⟩
  | OpenAIRead.msg response =>
    if (index response "type").eqString "response.audio.delta"
        && (index response "delta").notNil then
      let delta := (index response "delta").assertString.1
      match DecodeString delta with
      | none =>
        ⟨Op.readOpenAI :: logEvents response ++ [Op.log "Error decoding audio: %v"],
          streamSid, false⟩
      | some audioData =>
        let currentStreamSid := streamSid
        let audioDelta := JVal.obj [
          ("event", JVal.str "media"),
          ("streamSid", JVal.str currentStreamSid),
          ("media", JVal.obj [("payload", JVal.str (EncodeToString audioData))])]
        if writeOk then
          ⟨Op.readOpenAI :: logEvents response ++ [Op.writeTwilio audioDelta true],
            streamSid, false⟩
        else
          ⟨Op.readOpenAI :: logEvents response ++
            [Op.writeTwilio audioDelta false, Op.log "Error sending to Twilio: %v"],
            streamSid, true⟩
    else
      ⟨Op.readOpenAI :: logEvents response, streamSid, false⟩

/-! ## Session set-up and the orchestrator -/

/-- The value `update` built by `sendSessionUpdate`. -/
def sessionUpdateValue : SessionUpdate :=
  { Type_ := "session.update"
    Session :=
      { TurnDetection := { Type_ := "server_vad" }
        InputAudioFormat := "g711_ulaw"
        OutputAudioFormat := "g711_ulaw"
        Voice := voice
        Instructions := systemMessage
        Modalities := ["text", "audio"]
        Temperature := 0.8 } }

/-- The function `sendSessionUpdate`: its effects and whether it returned a nil
error; `writeOk` is the outcome of `conn.WriteJSON(update)`. -/
def sendSessionUpdate (writeOk : Bool) : List Op × Bool :=
  ([Op.log "Sending session update: %+v", Op.writeOpenAI sessionUpdateValue.toJSON writeOk],
    writeOk)

/-- State of a goroutine: not started, `running` (in its loop; for the Outbound
Relay: at the `select` at the top of its loop), `reading` (the Outbound Relay
has passed its `select` and waits in `openAIConn.ReadMessage()`), or exited. -/
inductive Task where
  | notStarted
  | running
  | reading
  | exited
  deriving DecidableEq

/-- A bridge session: the shared variable `streamSid`, the number of
`close(done)` executed so far, the two relay goroutines, whether
`handleMediaStream` has returned, and everything done so far. -/
structure Session where
  streamSid : String
  doneClosed : Nat
  inbound : Task
  outbound : Task
  returned : Bool
  trace : List Op

/-- A scheduling decision: which goroutine runs next, with the outcomes of the
link operations it performs.  `inbound` is one iteration of
`handleTwilioMessages`; `outboundSelect` is the `select` of
`handleOpenAIMessages`, which returns when `done` is closed and otherwise calls
`ReadMessage`; `outbound` is the return of that `ReadMessage` with outcome `r`,
followed by the rest of the iteration; `orchestrator` is the receive `<-done` of
`handleMediaStream`. -/
inductive Sched where
  | inbound (r : TwilioRead) (writeOk : Bool)
  | outboundSelect
  | outbound (r : OpenAIRead) (writeOk : Bool)
  | orchestrator

/-- The effects of running the scheduled goroutine for one step. -/
def stepOps (s : Session) : Sched → List Op
  | Sched.inbound r writeOk =>
    if s.inbound = Task.running then
      let it := twilioIteration s.streamSid r writeOk
      if it.exit then it.ops ++ [Op.closeDone] else it.ops
    else []
  | Sched.outboundSelect => []
  | Sched.outbound r writeOk =>
    if s.outbound = Task.reading then (openaiIteration s.streamSid r writeOk).ops else []
  | Sched.orchestrator =>
    if !s.returned && 0 < s.doneClosed then [Op.closeOpenAI, Op.closeTwilio] else []

/-- One step of the session.  A step that the goroutine is not ready for does
nothing.  At its `select` the Outbound Relay returns when `done` is closed and
otherwise enters `ReadMessage`; a read it has entered is completed and processed
whether or not `done` has been closed in the meantime, after which the relay has
returned or is back at its `select`.  The orchestrator returns from `<-done`
once `done` is closed and then runs its deferred `openAIConn.Close()` and
`twilioConn.Close()`. -/
def step (s : Session) (e : Sched) : Session :=
  match e with
  | Sched.inbound r writeOk =>
    if s.inbound = Task.running then
      let it := twilioIteration s.streamSid r writeOk
      { s with
        streamSid := it.streamSid
        doneClosed := if it.exit then s.doneClosed + 1 else s.doneClosed
        inbound := if it.exit then Task.exited else Task.running
        trace := s.trace ++ stepOps s e }
    else s
  | Sched.outboundSelect =>
    if s.outbound = Task.running then
      if 0 < s.doneClosed then { s with outbound := Task.exited }
      else { s with outbound := Task.reading }
    else s
  | Sched.outbound r writeOk =>
    if s.outbound = Task.reading then
      let it := openaiIteration s.streamSid r writeOk
      { s with
        outbound := if it.exit then Task.exited else Task.running
        trace := s.trace ++ stepOps s e }
    else s
  | Sched.orchestrator =>
    if !s.returned && 0 < s.doneClosed then
      { s with returned := true, trace := s.trace ++ stepOps s e }
    else s

/-- The session run under a schedule. -/
def run (s : Session) (sched : List Sched) : Session := sched.foldl step s

/-- The session right after both `go` statements of `handleMediaStream`, with
the effects `setup` of the set-up phase behind it. -/
def started (setup : List Op) : Session :=
  { streamSid := "", doneClosed := 0, inbound := Task.running, outbound := Task.running,
    returned := false, trace := setup }

/-- A session whose set-up failed: `handleMediaStream` has returned and no
goroutine was started. -/
def aborted (ops : List Op) : Session :=
  { streamSid := "", doneClosed := 0, inbound := Task.notStarted, outbound := Task.notStarted,
    returned := true, trace := ops }

/-- The function `handleMediaStream`: `upgradeOk`, `dialOk` and `sendOk` are the
outcomes of `upgrader.Upgrade`, `websocket.DefaultDialer.Dial` and of the write
inside `sendSessionUpdate`; `sched` is the schedule of the goroutines once they
are started. -/
def handleMediaStream (upgradeOk dialOk sendOk : Bool) (sched : List Sched) : Session :=
  if !upgradeOk then aborted [Op.log "Failed to upgrade connection: %v"]
  else if !dialOk then
    aborted [Op.log "Client connected", Op.log "Failed to connect to OpenAI: %v", Op.closeTwilio]
  else
    let sent := sendSessionUpdate sendOk
    if !sent.2 then
      aborted (Op.log "Client connected" :: sent.1 ++
        [Op.log "Failed to send session update: %v", Op.closeOpenAI, Op.closeTwilio])
    else run (started (Op.log "Client connected" :: sent.1)) sched

/-- The effects of the session under a schedule, from state `s` on. -/
def runOps (s : Session) : List Sched → List Op
  | [] => []
  | e :: es => stepOps s e ++ runOps (step s e) es

/-! ## Notions used to state the properties -/

/-- A link fault of the Inbound Relay, read off the outcome of an iteration: the
read from the Telephony Link failed, or the message was a "media" event and the
write of its append command to the AI Link failed. -/
def inboundFault : TwilioRead × Bool → Bool
  | (TwilioRead.readErr, _) => true
  | (TwilioRead.msg m, writeOk) => m.Event == "media" && !writeOk
  | (TwilioRead.badJSON, _) => false

/-- A link fault of the Outbound Relay, read off the outcome of an iteration: the
read from the AI Link failed, or the event was an audio delta to forward (type
"response.audio.delta", a delta that is not nil and that decodes) and the write
of its media frame to the Telephony Link failed. -/
def outboundFault : OpenAIRead × Bool → Bool
  | (OpenAIRead.readErr, _) => true
  | (OpenAIRead.msg response, writeOk) =>
    (index response "type").eqString "response.audio.delta" &&
      (index response "delta").notNil &&
      (DecodeString (index response "delta").assertString.1).isSome && !writeOk
  | (OpenAIRead.badJSON, _) => false

/-- A scheduled step of the Outbound Relay. -/
def Sched.isOutbound : Sched → Bool
  | Sched.outboundSelect => true
  | Sched.outbound _ _ => true
  | _ => false

/-- The operation `twilioConn.ReadMessage()`. -/
def Op.isReadTwilio : Op → Bool
  | Op.readTwilio => true
  | _ => false

/-- A scheduled step that is an Inbound Relay iteration ending in a link fault. -/
def Sched.inboundFault : Sched → Bool
  | Sched.inbound r writeOk => Geppetto.inboundFault (r, writeOk)
  | _ => false

/-- The stream identifier carried by a scheduled "start" event, if the step is an
Inbound Relay iteration on a decoded "start" event. -/
def Sched.startSid : Sched → Option String
  | Sched.inbound (TwilioRead.msg m) _ => if m.Event = "start" then some m.Start.StreamSid else none
  | _ => none

/-- The stream identifiers of the "start" events that the Inbound Relay processes
under a schedule, oldest first: those scheduled before the relay's first fault
(after which it has exited and reads nothing). -/
def processedStarts : List Sched → List String
  | [] => []
  | e :: es => if e.inboundFault then [] else e.startSid.toList ++ processedStarts es

/-- The stream identifier of the most recent "start" event processed under a
schedule, and the empty string when there is none. -/
def mostRecentStart (sched : List Sched) : String :=
  (processedStarts sched).getLast?.getD ""

/-- Recognises a Session Configuration message by its "type". -/
def isSessionUpdate (v : JVal) : Bool := (v.field "type").eqString "session.update"

/-- One of the three close operations. -/
def Op.isClose : Op → Bool
  | Op.closeDone => true
  | Op.closeTwilio => true
  | Op.closeOpenAI => true
  | _ => false

/-- What holds of a started session at every moment: the Inbound Relay has been
started; `done` has been closed once if that relay has exited and never
otherwise; the trace holds as many `close(done)` as were executed; each link has
been closed once if `handleMediaStream` has returned and never otherwise; and
`handleMediaStream` has returned only after `done` was closed. -/
def Session.Consistent (s : Session) : Prop :=
  s.inbound ≠ Task.notStarted ∧
  s.doneClosed = (if s.inbound = Task.exited then 1 else 0) ∧
  s.trace.countP Op.isCloseDone = s.doneClosed ∧
  s.trace.countP Op.isCloseTwilio = (if s.returned then 1 else 0) ∧
  s.trace.countP Op.isCloseOpenAI = (if s.returned then 1 else 0) ∧
  (s.returned = true → s.doneClosed = 1)

/-! ## Inbound Relay: payload integrity -/

/-- C1. Inbound Relay payload integrity: for a telephony message decoded to event
"media" with payload `p` (any string), the loop iteration of
`handleTwilioMessages` hands exactly one command to the AI Link, whose "type" is
"input_audio_buffer.append" and whose "audio" is `p` unchanged, writes nothing to
the Telephony Link, and performs no other write. -/
theorem inbound_media_forwards_payload (streamSid : String) (m : TwilioMessage) (p : String)
    (writeOk : Bool) (hev : m.Event = "media") (hp : m.Media.Payload = p) :
    openAICommands (twilioIteration streamSid (TwilioRead.msg m) writeOk).ops =
        [JVal.obj [("type", JVal.str "input_audio_buffer.append"), ("audio", JVal.str p)]] ∧
      (∀ c ∈ openAICommands (twilioIteration streamSid (TwilioRead.msg m) writeOk).ops,
        c.field "type" = JVal.str "input_audio_buffer.append" ∧ c.field "audio" = JVal.str p) ∧
      twilioFrames (twilioIteration streamSid (TwilioRead.msg m) writeOk).ops = [] ∧
      ((twilioIteration streamSid (TwilioRead.msg m) writeOk).ops.filter Op.isWrite).length = 1 ∧
      (twilioIteration streamSid (TwilioRead.msg m) writeOk).streamSid = streamSid := by
  subst hp
  cases writeOk <;>
    simp [twilioIteration, hev, openAICommands, twilioFrames, Op.isWrite, JVal.field, index,
      List.lookup]

/-- C1, witness: scenario 1 of the specification, payload "QUJD". -/
theorem inbound_media_forwards_payload_witness :
    openAICommands (twilioIteration "MZ123"
        (TwilioRead.msg ⟨"media", ⟨"QUJD"⟩, ⟨""⟩⟩) true).ops =
        [JVal.obj [("type", JVal.str "input_audio_buffer.append"), ("audio", JVal.str "QUJD")]] :=
  (inbound_media_forwards_payload "MZ123" ⟨"media", ⟨"QUJD"⟩, ⟨""⟩⟩ "QUJD" true rfl rfl).1

/-! ## Inbound Relay: termination signalling -/

theorem twilioIteration_exit (streamSid : String) (r : TwilioRead) (writeOk : Bool) :
    (twilioIteration streamSid r writeOk).exit = inboundFault (r, writeOk) := by
  cases r with
  | readErr => rfl
  | badJSON => rfl
  | msg m =>
    by_cases h1 : m.Event = "media"
    · cases writeOk <;> simp [twilioIteration, inboundFault, h1]
    · by_cases h2 : m.Event = "start" <;> simp [twilioIteration, inboundFault, h1, h2]

theorem twilioIteration_closeDone (streamSid : String) (r : TwilioRead) (writeOk : Bool) :
    (twilioIteration streamSid r writeOk).ops.countP Op.isCloseDone = 0 := by
  cases r with
  | readErr => rfl
  | badJSON => rfl
  | msg m =>
    by_cases h1 : m.Event = "media"
    · cases writeOk <;> simp [twilioIteration, h1, Op.isCloseDone]
    · by_cases h2 : m.Event = "start" <;> simp [twilioIteration, h1, h2, Op.isCloseDone]

theorem twilioIteration_reads (streamSid : String) (r : TwilioRead) (writeOk : Bool) :
    (twilioIteration streamSid r writeOk).ops.countP Op.isReadTwilio = 1 := by
  cases r with
  | readErr => rfl
  | badJSON => rfl
  | msg m =>
    by_cases h1 : m.Event = "media"
    · cases writeOk <;> simp [twilioIteration, h1, Op.isReadTwilio]
    · by_cases h2 : m.Event = "start" <;> simp [twilioIteration, h1, h2, Op.isReadTwilio]

theorem handleTwilioMessages_cons (streamSid : String) (i : TwilioRead × Bool)
    (rest : List (TwilioRead × Bool)) :
    handleTwilioMessages streamSid (i :: rest) =
      if inboundFault i then
        ⟨(twilioIteration streamSid i.1 i.2).ops ++ [Op.closeDone],
          (twilioIteration streamSid i.1 i.2).streamSid, true⟩
      else
        ⟨(twilioIteration streamSid i.1 i.2).ops ++
            (handleTwilioMessages (twilioIteration streamSid i.1 i.2).streamSid rest).ops,
          (handleTwilioMessages (twilioIteration streamSid i.1 i.2).streamSid rest).streamSid,
          (handleTwilioMessages (twilioIteration streamSid i.1 i.2).streamSid rest).exited⟩ := by
  obtain ⟨r, w⟩ := i
  simp only [handleTwilioMessages, twilioIteration_exit]

theorem handleTwilioMessages_exited (streamSid : String) (inputs : List (TwilioRead × Bool)) :
    (handleTwilioMessages streamSid inputs).exited = inputs.any inboundFault := by
  induction inputs generalizing streamSid with
  | nil => rfl
  | cons i rest ih =>
    rw [handleTwilioMessages_cons]
    by_cases h : inboundFault i = true
    · simp [h]
    · simp [h, ih]

theorem handleTwilioMessages_closeDone (streamSid : String)
    (inputs : List (TwilioRead × Bool)) :
    (handleTwilioMessages streamSid inputs).ops.countP Op.isCloseDone =
      if (handleTwilioMessages streamSid inputs).exited then 1 else 0 := by
  induction inputs generalizing streamSid with
  | nil => rfl
  | cons i rest ih =>
    rw [handleTwilioMessages_cons]
    by_cases h : inboundFault i = true
    · simp [h, List.countP_append, twilioIteration_closeDone, Op.isCloseDone]
    · simp [h, List.countP_append, twilioIteration_closeDone, ih]

theorem handleTwilioMessages_last (streamSid : String) (inputs : List (TwilioRead × Bool))
    (h : (handleTwilioMessages streamSid inputs).exited = true) :
    (handleTwilioMessages streamSid inputs).ops.getLast? = some Op.closeDone := by
  induction inputs generalizing streamSid with
  | nil => simp [handleTwilioMessages] at h
  | cons i rest ih =>
    rw [handleTwilioMessages_cons] at h ⊢
    by_cases hf : inboundFault i = true
    · simp [hf]
    · simp only [hf, Bool.false_eq_true, if_false] at h ⊢
      have hl := ih _ h
      rw [List.getLast?_append, hl]
      rfl

theorem handleTwilioMessages_reads (streamSid : String) (inputs : List (TwilioRead × Bool)) :
    (handleTwilioMessages streamSid inputs).ops.countP Op.isReadTwilio =
      (inputs.takeWhile fun i => !inboundFault i).length +
        if (handleTwilioMessages streamSid inputs).exited then 1 else 0 := by
  induction inputs generalizing streamSid with
  | nil => rfl
  | cons i rest ih =>
    rw [handleTwilioMessages_cons]
    by_cases h : inboundFault i = true
    · simp [h, List.countP_append, twilioIteration_reads, Op.isReadTwilio]
    · simp [h, List.countP_append, twilioIteration_reads, ih]
      omega

theorem handleTwilioMessages_stops (streamSid : String) (pre post : List (TwilioRead × Bool))
    (f : TwilioRead × Bool) (hpre : pre.all (fun i => !inboundFault i) = true)
    (hf : inboundFault f = true) :
    handleTwilioMessages streamSid (pre ++ f :: post) =
      handleTwilioMessages streamSid (pre ++ [f]) := by
  induction pre generalizing streamSid with
  | nil => simp [handleTwilioMessages_cons, hf]
  | cons i rest ih =>
    simp only [List.all_cons, Bool.and_eq_true, Bool.not_eq_true_eq_eq_false,
      Bool.not_eq_eq_eq_not, Bool.not_true] at hpre
    simp only [List.cons_append, handleTwilioMessages_cons, hpre.1, Bool.false_eq_true, if_false]
    rw [ih _ hpre.2]

/-- C6. Inbound termination signalling: on every sequence of read/write outcomes,
`handleTwilioMessages` executes `close(done)` once if it has exited and not at all
otherwise; when it has exited, `close(done)` is its last effect; it has exited
exactly when some iteration was a fault (failed read, or failed write of an
append command); it has read the messages before the first fault and the faulty
one, and nothing after; whatever follows the first fault does not change its
behaviour; and on a fault-free sequence (start, stop, unknown tags and decode
failures included) it neither exits nor signals. -/
theorem inbound_termination_signalling (streamSid : String)
    (inputs : List (TwilioRead × Bool)) :
    (handleTwilioMessages streamSid inputs).ops.countP Op.isCloseDone =
        (if (handleTwilioMessages streamSid inputs).exited then 1 else 0) ∧
      ((handleTwilioMessages streamSid inputs).exited = true →
        (handleTwilioMessages streamSid inputs).ops.getLast? = some Op.closeDone) ∧
      (handleTwilioMessages streamSid inputs).exited = inputs.any inboundFault ∧
      (handleTwilioMessages streamSid inputs).ops.countP Op.isReadTwilio =
        (inputs.takeWhile fun i => !inboundFault i).length +
          (if (handleTwilioMessages streamSid inputs).exited then 1 else 0) ∧
      (∀ pre f post, inputs = pre ++ f :: post → pre.all (fun i => !inboundFault i) = true →
        inboundFault f = true →
        handleTwilioMessages streamSid inputs = handleTwilioMessages streamSid (pre ++ [f])) ∧
      (inputs.all (fun i => !inboundFault i) = true →
        (handleTwilioMessages streamSid inputs).exited = false ∧
        (handleTwilioMessages streamSid inputs).ops.countP Op.isCloseDone = 0 ∧
        (handleTwilioMessages streamSid inputs).ops.countP Op.isReadTwilio = inputs.length) := by
  refine ⟨handleTwilioMessages_closeDone _ _, handleTwilioMessages_last _ _,
    handleTwilioMessages_exited _ _, handleTwilioMessages_reads _ _, ?_, ?_⟩
  · intro pre f post hin hpre hf
    rw [hin]
    exact handleTwilioMessages_stops _ _ _ _ hpre hf
  · intro hall
    have hex : (handleTwilioMessages streamSid inputs).exited = false := by
      rw [handleTwilioMessages_exited]
      simp only [List.all_eq_true, Bool.not_eq_true_eq_eq_false, Bool.not_eq_eq_eq_not,
        Bool.not_true] at hall
      simpa using hall
    refine ⟨hex, ?_, ?_⟩
    · rw [handleTwilioMessages_closeDone, hex]; rfl
    · rw [handleTwilioMessages_reads, hex]
      have : (inputs.takeWhile fun i => !inboundFault i) = inputs := by
        rw [List.takeWhile_eq_self_iff]
        simpa using hall
      rw [this]; simp

/-! ## The session: effects and the trace -/

theorem step_trace (s : Session) (e : Sched) : (step s e).trace = s.trace ++ stepOps s e := by
  cases e <;> simp only [step, stepOps] <;> split_ifs <;> simp

theorem step_setTrace (s : Session) (t : List Op) (e : Sched) :
    step { s with trace := t } e = { step s e with trace := t ++ stepOps s e } := by
  cases e <;> simp only [step, stepOps] <;> split_ifs <;> simp

theorem stepOps_setTrace (s : Session) (t : List Op) (e : Sched) :
    stepOps { s with trace := t } e = stepOps s e := by
  cases e <;> rfl

theorem run_cons (s : Session) (e : Sched) (es : List Sched) :
    run s (e :: es) = run (step s e) es := rfl

theorem run_setTrace (s : Session) (t : List Op) (sched : List Sched) :
    run { s with trace := t } sched = { run s sched with trace := t ++ runOps s sched } := by
  induction sched generalizing s t with
  | nil => simp [run, runOps]
  | cons e es ih =>
    simp only [run_cons, runOps, step_setTrace]
    rw [ih (step s e) (t ++ stepOps s e)]
    simp

theorem run_trace (s : Session) (sched : List Sched) :
    (run s sched).trace = s.trace ++ runOps s sched := by
  induction sched generalizing s with
  | nil => simp [run, runOps]
  | cons e es ih => rw [run_cons, ih, step_trace, runOps, List.append_assoc]

/-! ## Decode failures -/

theorem run_append (s : Session) (a b : List Sched) : run s (a ++ b) = run (run s a) b := by
  simp [run, List.foldl_append]

theorem runOps_append (s : Session) (a b : List Sched) :
    runOps s (a ++ b) = runOps s a ++ runOps (run s a) b := by
  induction a generalizing s with
  | nil => simp [runOps, run]
  | cons e es ih => simp [runOps, run_cons, ih, List.append_assoc]

theorem step_outbound_eq (s : Session) (e : Sched) (h : e.isOutbound = false) :
    (step s e).outbound = s.outbound := by
  cases e with
  | inbound r w => simp only [step]; split_ifs <;> rfl
  | outboundSelect => simp [Sched.isOutbound] at h
  | outbound r w => simp [Sched.isOutbound] at h
  | orchestrator => simp only [step]; split_ifs <;> rfl

theorem run_outbound_eq (s : Session) (mid : List Sched)
    (h : mid.all (fun e => !e.isOutbound) = true) : (run s mid).outbound = s.outbound := by
  induction mid generalizing s with
  | nil => rfl
  | cons e es ih =>
    simp only [List.all_cons, Bool.and_eq_true, Bool.not_eq_true_eq_eq_false,
      Bool.not_eq_eq_eq_not, Bool.not_true] at h
    rw [run_cons, ih _ h.2, step_outbound_eq s e h.1]

theorem step_setOutbound (s : Session) (x : Task) (t : List Op) (e : Sched)
    (h : e.isOutbound = false) :
    step { s with outbound := x, trace := t } e =
      { step s e with outbound := x, trace := t ++ stepOps s e } := by
  cases e with
  | inbound r w => simp only [step, stepOps]; split_ifs <;> simp
  | outboundSelect => simp [Sched.isOutbound] at h
  | outbound r w => simp [Sched.isOutbound] at h
  | orchestrator => simp only [step, stepOps]; split_ifs <;> simp

theorem run_setOutbound (s : Session) (x : Task) (t : List Op) (mid : List Sched)
    (h : mid.all (fun e => !e.isOutbound) = true) :
    run { s with outbound := x, trace := t } mid =
      { run s mid with outbound := x, trace := t ++ runOps s mid } := by
  induction mid generalizing s t with
  | nil => simp [run, runOps]
  | cons e es ih =>
    simp only [List.all_cons, Bool.and_eq_true, Bool.not_eq_true_eq_eq_false,
      Bool.not_eq_eq_eq_not, Bool.not_true] at h
    rw [run_cons, step_setOutbound s x t e h.1, ih (step s e) (t ++ stepOps s e) h.2]
    simp [run_cons, runOps, List.append_assoc]

theorem outbound_badJSON_step (s : Session) (writeOk : Bool) (h : s.outbound = Task.reading) :
    step s (Sched.outbound OpenAIRead.badJSON writeOk) =
      { s with
        outbound := Task.running
        trace := s.trace ++ [Op.readOpenAI, Op.log "Error unmarshaling OpenAI message: %v"] } := by
  simp [step, stepOps, h, openaiIteration]

/-- C5 (amended). Non-fatal decode. A message that fails to decode, read by a
relay, only adds the read and one log entry to the trace: no write, no
`close(done)`, the stream identifier and the termination signal are as before and
the relay has not exited. For the Inbound Relay the session then behaves under
every later schedule as if the message had not been received (same state, same
later effects), and the same holds for `handleTwilioMessages` run on its own.
The Outbound Relay is back at its `select`: if `done` is still open when it
executes that `select` (after any steps `mid` of the other goroutines), it reads
on and the session behaves under every later schedule as if the message had not
been received; if `done` has been closed by then, the relay returns at that
`select`, and a relay that has returned reads nothing further. -/
theorem decode_failure_nonfatal (s : Session) (writeOk : Bool) (mid sched : List Sched) :
    (s.inbound = Task.running →
      step s (Sched.inbound TwilioRead.badJSON writeOk) =
        { s with
          trace := s.trace ++ [Op.readTwilio, Op.log "Error unmarshaling Twilio message: %v"] } ∧
      run (step s (Sched.inbound TwilioRead.badJSON writeOk)) sched =
        { run s sched with
          trace := s.trace ++ [Op.readTwilio, Op.log "Error unmarshaling Twilio message: %v"] ++
            runOps s sched }) ∧
    (s.outbound = Task.reading →
      step s (Sched.outbound OpenAIRead.badJSON writeOk) =
        { s with
          outbound := Task.running
          trace := s.trace ++ [Op.readOpenAI, Op.log "Error unmarshaling OpenAI message: %v"] }) ∧
    (s.outbound = Task.reading → mid.all (fun e => !e.isOutbound) = true →
      (run s mid).doneClosed = 0 →
      run s (Sched.outbound OpenAIRead.badJSON writeOk :: (mid ++ Sched.outboundSelect :: sched)) =
        { run s (mid ++ sched) with
          trace := s.trace ++ [Op.readOpenAI, Op.log "Error unmarshaling OpenAI message: %v"] ++
            runOps s (mid ++ sched) }) ∧
    (s.outbound = Task.reading → mid.all (fun e => !e.isOutbound) = true →
      0 < (run s mid).doneClosed →
      run s (Sched.outbound OpenAIRead.badJSON writeOk :: (mid ++ [Sched.outboundSelect])) =
        { run s mid with
          outbound := Task.exited
          trace := s.trace ++ [Op.readOpenAI, Op.log "Error unmarshaling OpenAI message: %v"] ++
            runOps s mid }) ∧
    (∀ (x : Session) (r : OpenAIRead) (w : Bool), x.outbound = Task.exited →
      step x (Sched.outbound r w) = x ∧ step x Sched.outboundSelect = x) ∧
    (run s sched).trace = s.trace ++ runOps s sched ∧
    (∀ streamSid rest,
      handleTwilioMessages streamSid ((TwilioRead.badJSON, writeOk) :: rest) =
        { handleTwilioMessages streamSid rest with
          ops := [Op.readTwilio, Op.log "Error unmarshaling Twilio message: %v"] ++
            (handleTwilioMessages streamSid rest).ops }) := by
  refine ⟨?_, outbound_badJSON_step s writeOk, ?_, ?_, ?_, run_trace s sched, ?_⟩
  · intro hin
    have h1 : step s (Sched.inbound TwilioRead.badJSON writeOk) =
        { s with
          trace := s.trace ++
            [Op.readTwilio, Op.log "Error unmarshaling Twilio message: %v"] } := by
      simp [step, stepOps, hin, twilioIteration]
    exact ⟨h1, by rw [h1, run_setTrace]⟩
  · intro hout hmid hdone
    have hkeep : (run s mid).outbound = Task.reading := by rw [run_outbound_eq s mid hmid, hout]
    rw [run_cons, outbound_badJSON_step s writeOk hout, run_append, run_setOutbound _ _ _ _ hmid,
      run_cons]
    have hsel : step
        { run s mid with
          outbound := Task.running
          trace := s.trace ++ [Op.readOpenAI, Op.log "Error unmarshaling OpenAI message: %v"] ++
            runOps s mid } Sched.outboundSelect =
        { run s mid with
          trace := s.trace ++ [Op.readOpenAI, Op.log "Error unmarshaling OpenAI message: %v"] ++
            runOps s mid } := by
      simp [step, hdone, hkeep]
    rw [hsel, run_setTrace, run_append, runOps_append]
    simp [List.append_assoc]
  · intro hout hmid hdone
    rw [run_cons, outbound_badJSON_step s writeOk hout, run_append, run_setOutbound _ _ _ _ hmid]
    have hone : ∀ x : Session, run x [Sched.outboundSelect] = step x Sched.outboundSelect :=
      fun _ => rfl
    rw [hone]
    simp [step, hdone]
  · intro x r w hx
    simp [step, hx]
  · intro streamSid rest
    simp [handleTwilioMessages, twilioIteration]

/-- C5, counterexample. The Outbound Relay is waiting in its read when the
Inbound Relay fails and closes `done`. If a malformed AI message arrives next,
the relay returns at its following `select` and the audio delta "QUJD" that
comes after is never read; without the malformed message the same delta is read
and forwarded to the Telephony Link. -/
theorem decode_failure_then_select_exits :
    twilioFrames (handleMediaStream true true true
        [Sched.outboundSelect, Sched.inbound TwilioRead.readErr true,
          Sched.outbound OpenAIRead.badJSON true, Sched.outboundSelect,
          Sched.outbound (OpenAIRead.msg [("type", JVal.str "response.audio.delta"),
            ("delta", JVal.str "QUJD")]) true]).trace = [] ∧
      (handleMediaStream true true true
        [Sched.outboundSelect, Sched.inbound TwilioRead.readErr true,
          Sched.outbound OpenAIRead.badJSON true, Sched.outboundSelect,
          Sched.outbound (OpenAIRead.msg [("type", JVal.str "response.audio.delta"),
            ("delta", JVal.str "QUJD")]) true]).outbound = Task.exited ∧
      twilioFrames (handleMediaStream true true true
        [Sched.outboundSelect, Sched.inbound TwilioRead.readErr true,
          Sched.outbound (OpenAIRead.msg [("type", JVal.str "response.audio.delta"),
            ("delta", JVal.str "QUJD")]) true]).trace =
        [JVal.obj [("event", JVal.str "media"), ("streamSid", JVal.str ""),
          ("media", JVal.obj [("payload", JVal.str "QUJD")])]] ∧
      (handleMediaStream true true true
        [Sched.outboundSelect, Sched.inbound TwilioRead.readErr true,
          Sched.outbound (OpenAIRead.msg [("type", JVal.str "response.audio.delta"),
            ("delta", JVal.str "QUJD")]) true]).outbound = Task.running :=
  ⟨rfl, by decide, rfl, by decide⟩

/-! ## Outbound Relay: which events are forwarded -/

theorem eqString_iff (v : JVal) (t : String) : v.eqString t = true ↔ v = JVal.str t := by
  cases v <;> simp [JVal.eqString]

theorem notNil_iff (v : JVal) : v.notNil = true ↔ v ≠ JVal.null := by
  cases v <;> simp [JVal.notNil]

theorem twilioFrames_append (a b : List Op) :
    twilioFrames (a ++ b) = twilioFrames a ++ twilioFrames b := by
  induction a with
  | nil => rfl
  | cons o os ih => cases o <;> simp [twilioFrames, ih]

theorem twilioFrames_logEvents (response : List (String × JVal)) :
    twilioFrames (logEvents response) = [] := by
  unfold logEvents
  split
  · generalize (logEventTypes.filter _) = l
    induction l with
    | nil => rfl
    | cons x xs ih => simpa [twilioFrames] using ih
  · rfl

/-- C7. Diagnostic events are never forwarded: for an AI event whose "type" is one
of the tags of `logEventTypes`, whatever else the event carries, the iteration of
`handleOpenAIMessages` reads the message, logs it once, writes nothing, leaves
the stream identifier unchanged and stays in the loop; in a session the step
adds these two effects to the trace, puts the relay back at its `select` and
changes nothing else. -/
theorem diagnostic_events_not_forwarded (streamSid : String) (response : List (String × JVal))
    (t : String) (writeOk : Bool) (ht : t ∈ logEventTypes)
    (hty : index response "type" = JVal.str t) :
    openaiIteration streamSid (OpenAIRead.msg response) writeOk =
        ⟨[Op.readOpenAI, Op.log "Received event: %s %v"], streamSid, false⟩ ∧
      twilioFrames (openaiIteration streamSid (OpenAIRead.msg response) writeOk).ops = [] ∧
      (openaiIteration streamSid (OpenAIRead.msg response) writeOk).ops.filter Op.isWrite = [] ∧
      (∀ s : Session, s.outbound = Task.reading →
        step s (Sched.outbound (OpenAIRead.msg response) writeOk) =
          { s with
            outbound := Task.running
            trace := s.trace ++ [Op.readOpenAI, Op.log "Received event: %s %v"] }) := by
  have h : ∀ sid, openaiIteration sid (OpenAIRead.msg response) writeOk =
      ⟨[Op.readOpenAI, Op.log "Received event: %s %v"], sid, false⟩ := by
    intro sid
    simp only [logEventTypes, List.mem_cons, List.mem_singleton, List.not_mem_nil,
      or_false] at ht
    rcases ht with h | h | h | h | h | h | h <;> subst h <;>
      simp [openaiIteration, hty, JVal.eqString, logEvents, JVal.assertString, logEventTypes,
        List.filter]
  refine ⟨h _, by rw [h]; rfl, by rw [h]; rfl, ?_⟩
  intro s hout
  simp [step, stepOps, hout, h]

/-- C7, witness: a "session.created" event that also carries a "delta" field. -/
theorem diagnostic_events_not_forwarded_witness :
    openaiIteration "MZ123"
        (OpenAIRead.msg [("type", JVal.str "session.created"), ("delta", JVal.str "QUJD")]) true =
      ⟨[Op.readOpenAI, Op.log "Received event: %s %v"], "MZ123", false⟩ :=
  (diagnostic_events_not_forwarded "MZ123"
    [("type", JVal.str "session.created"), ("delta", JVal.str "QUJD")] "session.created" true
    (by decide) rfl).1

theorem openaiIteration_frames (streamSid : String) (response : List (String × JVal))
    (writeOk : Bool) :
    twilioFrames (openaiIteration streamSid (OpenAIRead.msg response) writeOk).ops =
      if (index response "type").eqString "response.audio.delta"
          && (index response "delta").notNil then
        match DecodeString (index response "delta").assertString.1 with
        | none => []
        | some audioData =>
          [JVal.obj [("event", JVal.str "media"), ("streamSid", JVal.str streamSid),
            ("media", JVal.obj [("payload", JVal.str (EncodeToString audioData))])]]
      else [] := by
  by_cases hc : ((index response "type").eqString "response.audio.delta"
      && (index response "delta").notNil) = true
  · cases hd : DecodeString (index response "delta").assertString.1 with
    | none =>
      simp [openaiIteration, hc, hd, twilioFrames, twilioFrames_append, twilioFrames_logEvents]
    | some audioData =>
      cases writeOk <;>
        simp [openaiIteration, hc, hd, twilioFrames, twilioFrames_append,
          twilioFrames_logEvents]
  · simp [openaiIteration, hc, twilioFrames, twilioFrames_logEvents]

theorem openaiIteration_exit_of_reject (streamSid : String) (response : List (String × JVal))
    (writeOk : Bool) (h : DecodeString (index response "delta").assertString.1 = none) :
    (openaiIteration streamSid (OpenAIRead.msg response) writeOk).exit = false := by
  by_cases hc : ((index response "type").eqString "response.audio.delta"
      && (index response "delta").notNil) = true
  · simp [openaiIteration, hc, h]
  · simp [openaiIteration, hc]

/-- C10. Exact forwarding condition of the Outbound Relay: for a decoded AI event
the iteration of `handleOpenAIMessages` writes a telephony frame if and only if
the event's "type" is the string "response.audio.delta", its "delta" is present
and not null, and the delta text (the empty string when "delta" is not a JSON
string) is accepted by the base64 decoder; it then writes exactly one frame, with
event "media", the current stream identifier and the re-encoded bytes; a rejected
delta writes nothing and keeps the relay in its loop; a delta that is not a
string gives one media frame with an empty payload. -/
theorem outbound_forwarding_condition (streamSid : String) (response : List (String × JVal))
    (writeOk : Bool) :
    (twilioFrames (openaiIteration streamSid (OpenAIRead.msg response) writeOk).ops ≠ [] ↔
        index response "type" = JVal.str "response.audio.delta" ∧
        index response "delta" ≠ JVal.null ∧
        ∃ audioData, DecodeString (index response "delta").assertString.1 = some audioData) ∧
      (∀ audioData, index response "type" = JVal.str "response.audio.delta" →
        index response "delta" ≠ JVal.null →
        DecodeString (index response "delta").assertString.1 = some audioData →
        twilioFrames (openaiIteration streamSid (OpenAIRead.msg response) writeOk).ops =
          [JVal.obj [("event", JVal.str "media"), ("streamSid", JVal.str streamSid),
            ("media", JVal.obj [("payload", JVal.str (EncodeToString audioData))])]]) ∧
      (DecodeString (index response "delta").assertString.1 = none →
        twilioFrames (openaiIteration streamSid (OpenAIRead.msg response) writeOk).ops = [] ∧
        (openaiIteration streamSid (OpenAIRead.msg response) writeOk).exit = false) ∧
      (index response "type" = JVal.str "response.audio.delta" →
        index response "delta" ≠ JVal.null →
        (∀ t, index response "delta" ≠ JVal.str t) →
        twilioFrames (openaiIteration streamSid (OpenAIRead.msg response) writeOk).ops =
          [JVal.obj [("event", JVal.str "media"), ("streamSid", JVal.str streamSid),
            ("media", JVal.obj [("payload", JVal.str "")])]]) := by
  rw [openaiIteration_frames]
  refine ⟨?_, ?_, ?_, ?_⟩
  · constructor
    · intro h
      split_ifs at h with hc
      · rw [Bool.and_eq_true, eqString_iff, notNil_iff] at hc
        refine ⟨hc.1, hc.2, ?_⟩
        cases hd : DecodeString (index response "delta").assertString.1 with
        | none => rw [hd] at h; exact absurd rfl h
        | some audioData => exact ⟨audioData, rfl⟩
      · exact absurd rfl h
    · rintro ⟨h1, h2, audioData, h3⟩
      have hc : ((index response "type").eqString "response.audio.delta"
          && (index response "delta").notNil) = true := by
        rw [Bool.and_eq_true, eqString_iff, notNil_iff]; exact ⟨h1, h2⟩
      rw [if_pos hc, h3]
      simp
  · intro audioData h1 h2 h3
    have hc : ((index response "type").eqString "response.audio.delta"
        && (index response "delta").notNil) = true := by
      rw [Bool.and_eq_true, eqString_iff, notNil_iff]; exact ⟨h1, h2⟩
    rw [if_pos hc, h3]
  · intro h3
    refine ⟨?_, openaiIteration_exit_of_reject _ _ _ h3⟩
    rw [h3]
    split_ifs <;> rfl
  · intro h1 h2 h3
    have hc : ((index response "type").eqString "response.audio.delta"
        && (index response "delta").notNil) = true := by
      rw [Bool.and_eq_true, eqString_iff, notNil_iff]; exact ⟨h1, h2⟩
    have hs : (index response "delta").assertString.1 = "" := by
      cases hv : index response "delta" with
      | str t => exact absurd hv (h3 t)
      | _ => rfl
    rw [if_pos hc, hs]
    rfl

/-! ## Session configuration -/

/-- C8. Session configuration is a fixed record: whatever the outcome of the
write, `sendSessionUpdate` logs, hands one value to the AI Link and returns the
outcome of that write; the value has type "session.update",
session.turn_detection.type "server_vad", input and output audio format both
"g711_ulaw", voice "alloy", instructions equal to `systemMessage`, modalities
"text" then "audio", and temperature 0.8. -/
theorem session_update_is_fixed (writeOk : Bool) :
    sendSessionUpdate writeOk =
        ([Op.log "Sending session update: %+v",
          Op.writeOpenAI sessionUpdateValue.toJSON writeOk], writeOk) ∧
      openAICommands (sendSessionUpdate writeOk).1 = [sessionUpdateValue.toJSON] ∧
      ((sendSessionUpdate writeOk).1.filter Op.isWrite).length = 1 ∧
      sessionUpdateValue.Type_ = "session.update" ∧
      sessionUpdateValue.Session.TurnDetection.Type_ = "server_vad" ∧
      sessionUpdateValue.Session.InputAudioFormat = "g711_ulaw" ∧
      sessionUpdateValue.Session.OutputAudioFormat = sessionUpdateValue.Session.InputAudioFormat ∧
      sessionUpdateValue.Session.Voice = "alloy" ∧
      sessionUpdateValue.Session.Instructions = systemMessage ∧
      sessionUpdateValue.Session.Modalities = ["text", "audio"] ∧
      sessionUpdateValue.Session.Temperature = 8 / 10 ∧
      sessionUpdateValue.toJSON =
        JVal.obj [
          ("type", JVal.str "session.update"),
          ("session", JVal.obj [
            ("turn_detection", JVal.obj [("type", JVal.str "server_vad")]),
            ("input_audio_format", JVal.str "g711_ulaw"),
            ("output_audio_format", JVal.str "g711_ulaw"),
            ("voice", JVal.str "alloy"),
            ("instructions", JVal.str systemMessage),
            ("modalities", JVal.arr [JVal.str "text", JVal.str "audio"]),
            ("temperature", JVal.num (8 / 10))])] := by
  have ht : sessionUpdateValue.Session.Temperature = 8 / 10 := by
    show (0.8 : ℚ) = 8 / 10
    norm_num
  refine ⟨rfl, rfl, rfl, rfl, rfl, rfl, rfl, rfl, rfl, rfl, ht, ?_⟩
  simp only [SessionUpdate.toJSON, ht]
  rfl

/-! ## Identifier currency -/

theorem step_inbound_stopped (s : Session) (e : Sched) (h : s.inbound ≠ Task.running) :
    (step s e).streamSid = s.streamSid ∧ (step s e).inbound = s.inbound := by
  cases e <;> simp only [step] <;> split_ifs <;> simp_all

theorem step_inbound_fault (s : Session) (e : Sched) (h : s.inbound = Task.running)
    (hf : e.inboundFault = true) :
    (step s e).streamSid = s.streamSid ∧ (step s e).inbound = Task.exited := by
  cases e with
  | inbound r w =>
    have hx : (twilioIteration s.streamSid r w).exit = true := by
      rw [twilioIteration_exit]; exact hf
    have hs : (twilioIteration s.streamSid r w).streamSid = s.streamSid := by
      cases r with
      | readErr => rfl
      | badJSON => simp [Sched.inboundFault, inboundFault] at hf
      | msg m =>
        simp only [Sched.inboundFault, inboundFault, Bool.and_eq_true, beq_iff_eq] at hf
        simp [twilioIteration, hf.1]
        split_ifs <;> rfl
    simp [step, h, hx, hs]
  | outboundSelect => simp [Sched.inboundFault] at hf
  | outbound r w => simp [Sched.inboundFault] at hf
  | orchestrator => simp [Sched.inboundFault] at hf

theorem step_inbound_ok (s : Session) (e : Sched) (h : s.inbound = Task.running)
    (hf : e.inboundFault = false) :
    (step s e).streamSid = e.startSid.getD s.streamSid ∧ (step s e).inbound = Task.running := by
  cases e with
  | inbound r w =>
    have hx : (twilioIteration s.streamSid r w).exit = false := by
      rw [twilioIteration_exit]; exact hf
    have hs : (twilioIteration s.streamSid r w).streamSid =
        (Sched.inbound r w).startSid.getD s.streamSid := by
      cases r with
      | readErr => rfl
      | badJSON => rfl
      | msg m =>
        by_cases h1 : m.Event = "media"
        · have h2 : m.Event ≠ "start" := by rw [h1]; decide
          cases w <;> simp [twilioIteration, Sched.startSid, h1, h2]
        · by_cases h2 : m.Event = "start" <;> simp [twilioIteration, Sched.startSid, h1, h2]
    simp [step, h, hx, hs]
  | outboundSelect =>
    refine ⟨?_, ?_⟩ <;> simp only [step] <;> split_ifs <;> simp_all [Sched.startSid]
  | outbound r w =>
    refine ⟨?_, ?_⟩ <;> simp only [step] <;> split_ifs <;> simp_all [Sched.startSid]
  | orchestrator =>
    refine ⟨?_, ?_⟩ <;> simp only [step] <;> split_ifs <;> simp_all [Sched.startSid]

theorem getLast?_cons_getD (a d : String) (l : List String) :
    (a :: l).getLast?.getD d = l.getLast?.getD a := by
  cases l with
  | nil => rfl
  | cons b bs =>
    rw [List.getLast?_cons_cons, List.getLast?_eq_getLast _ (List.cons_ne_nil b bs)]
    rfl

theorem run_streamSid (s : Session) (sched : List Sched) :
    (run s sched).streamSid =
      if s.inbound = Task.running then (processedStarts sched).getLast?.getD s.streamSid
      else s.streamSid := by
  induction sched generalizing s with
  | nil => simp [run, processedStarts]
  | cons e es ih =>
    rw [run_cons, ih]
    by_cases h : s.inbound = Task.running
    · by_cases hf : e.inboundFault = true
      · obtain ⟨h1, h2⟩ := step_inbound_fault s e h hf
        simp [h, h1, h2, processedStarts, hf]
      · rw [Bool.not_eq_true] at hf
        obtain ⟨h1, h2⟩ := step_inbound_ok s e h hf
        simp only [h, h1, h2, processedStarts, hf, if_true, Bool.false_eq_true, if_false]
        cases hs : e.startSid with
        | none => simp
        | some sid => simp [getLast?_cons_getD]
    · obtain ⟨h1, h2⟩ := step_inbound_stopped s e h
      simp [h, h1, h2]

theorem stepOps_frames_sid (s : Session) (e : Sched) :
    ∀ f ∈ twilioFrames (stepOps s e), f.field "streamSid" = JVal.str s.streamSid := by
  intro f hf
  cases e with
  | inbound r w =>
    have h0 : twilioFrames (twilioIteration s.streamSid r w).ops = [] := by
      cases r with
      | readErr => rfl
      | badJSON => rfl
      | msg m =>
        by_cases h1 : m.Event = "media"
        · cases w <;> simp [twilioIteration, h1, twilioFrames]
        · by_cases h2 : m.Event = "start" <;> simp [twilioIteration, h1, h2, twilioFrames]
    simp only [stepOps] at hf
    split_ifs at hf
    · simp [twilioFrames_append, h0, twilioFrames] at hf
    · simp [h0] at hf
    · simp [twilioFrames] at hf
  | outboundSelect => simp [stepOps, twilioFrames] at hf
  | outbound r w =>
    simp only [stepOps] at hf
    split_ifs at hf
    · cases r with
      | readErr => simp [openaiIteration, twilioFrames] at hf
      | badJSON => simp [openaiIteration, twilioFrames] at hf
      | msg response =>
        rw [openaiIteration_frames] at hf
        split_ifs at hf
        · cases hd : DecodeString (index response "delta").assertString.1 with
          | none => simp [hd] at hf
          | some audioData =>
            simp only [hd, List.mem_singleton] at hf
            subst hf
            rfl
        · simp at hf
    · simp [twilioFrames] at hf
  | orchestrator =>
    simp only [stepOps] at hf
    split_ifs at hf <;> simp [twilioFrames] at hf

/-- C3. Identifier currency: in a session run under any schedule `pre` followed
by a step `e`, the stored stream identifier after `pre` is the streamSid of the
most recent "start" event the Inbound Relay processed in `pre` (the empty string
when there is none), every telephony frame written by the step `e` carries that
identifier, and a step changes the stored identifier only if it is an Inbound
Relay iteration on a "start" event, whose streamSid it then stores. -/
theorem identifier_currency (pre : List Sched) (e : Sched) :
    (handleMediaStream true true true pre).streamSid = mostRecentStart pre ∧
      (∀ f ∈ twilioFrames (stepOps (handleMediaStream true true true pre) e),
        f.field "streamSid" = JVal.str (mostRecentStart pre)) ∧
      (processedStarts pre = [] →
        ∀ f ∈ twilioFrames (stepOps (handleMediaStream true true true pre) e),
          f.field "streamSid" = JVal.str "") ∧
      (∀ s : Session, (step s e).streamSid ≠ s.streamSid →
        s.inbound = Task.running ∧
        ∃ m writeOk, e = Sched.inbound (TwilioRead.msg m) writeOk ∧ m.Event = "start" ∧
          (step s e).streamSid = m.Start.StreamSid) := by
  have h1 : (handleMediaStream true true true pre).streamSid = mostRecentStart pre := by
    simp [handleMediaStream, sendSessionUpdate, run_streamSid, started, mostRecentStart]
  refine ⟨h1, ?_, ?_, ?_⟩
  · intro f hf
    rw [← h1]
    exact stepOps_frames_sid _ _ f hf
  · intro hnone f hf
    have := stepOps_frames_sid _ _ f hf
    rw [h1] at this
    simpa [mostRecentStart, hnone] using this
  · intro s hne
    by_cases h : s.inbound = Task.running
    · refine ⟨h, ?_⟩
      by_cases hf : e.inboundFault = true
      · exact absurd (step_inbound_fault s e h hf).1 hne
      · rw [Bool.not_eq_true] at hf
        have h2 := (step_inbound_ok s e h hf).1
        cases e with
        | inbound r w =>
          cases r with
          | readErr => simp [Sched.startSid] at h2; exact absurd h2 hne
          | badJSON => simp [Sched.startSid] at h2; exact absurd h2 hne
          | msg m =>
            by_cases hs : m.Event = "start"
            · refine ⟨m, w, rfl, hs, ?_⟩
              simpa [Sched.startSid, hs] using h2
            · simp [Sched.startSid, hs] at h2; exact absurd h2 hne
        | outboundSelect => simp [Sched.startSid] at h2; exact absurd h2 hne
        | outbound r w => simp [Sched.startSid] at h2; exact absurd h2 hne
        | orchestrator => simp [Sched.startSid] at h2; exact absurd h2 hne
    · exact absurd (step_inbound_stopped s e h).1 hne

/-! ## Teardown -/

theorem logEvents_mem (response : List (String × JVal)) :
    ∀ o ∈ logEvents response, o = Op.log "Received event: %s %v" := by
  intro o ho
  unfold logEvents at ho
  split at ho
  · simp only [List.mem_map] at ho
    obtain ⟨_, _, h⟩ := ho
    exact h.symm
  · simp at ho

theorem twilioIteration_noClose (streamSid : String) (r : TwilioRead) (writeOk : Bool) :
    ∀ o ∈ (twilioIteration streamSid r writeOk).ops, o.isClose = false := by
  cases r with
  | readErr => simp [twilioIteration, Op.isClose]
  | badJSON => simp [twilioIteration, Op.isClose]
  | msg m =>
    by_cases h1 : m.Event = "media"
    · cases writeOk <;> simp [twilioIteration, h1, Op.isClose]
    · by_cases h2 : m.Event = "start" <;> simp [twilioIteration, h1, h2, Op.isClose]

theorem openaiIteration_noClose (streamSid : String) (r : OpenAIRead) (writeOk : Bool) :
    ∀ o ∈ (openaiIteration streamSid r writeOk).ops, o.isClose = false := by
  have hl : ∀ response, ∀ o ∈ logEvents response, o.isClose = false := by
    intro response o ho
    rw [logEvents_mem response o ho]
    rfl
  cases r with
  | readErr => simp [openaiIteration, Op.isClose]
  | badJSON => simp [openaiIteration, Op.isClose]
  | msg response =>
    by_cases hc : ((index response "type").eqString "response.audio.delta"
        && (index response "delta").notNil) = true
    · cases hd : DecodeString (index response "delta").assertString.1 with
      | none =>
        intro o ho
        simp only [openaiIteration, hc, hd, if_true, List.mem_cons, List.mem_append,
          List.mem_singleton, List.not_mem_nil, or_false] at ho
        rcases ho with (h | h) | h
        · rw [h]; rfl
        · exact hl _ _ h
        · rw [h]; rfl
      | some audioData =>
        intro o ho
        cases writeOk <;>
          simp only [openaiIteration, hc, hd, if_true, List.mem_cons, List.mem_append,
            List.mem_singleton, List.not_mem_nil, or_false, Bool.false_eq_true, if_false] at ho
        · rcases ho with (h | h) | h | h
          · rw [h]; rfl
          · exact hl _ _ h
          · rw [h]; rfl
          · rw [h]; rfl
        · rcases ho with (h | h) | h
          · rw [h]; rfl
          · exact hl _ _ h
          · rw [h]; rfl
    · intro o ho
      simp only [openaiIteration, hc, Bool.false_eq_true, if_false, List.mem_cons] at ho
      rcases ho with h | h
      · rw [h]; rfl
      · exact hl _ _ h

theorem countP_eq_zero_of_noClose (p : Op → Bool) (hp : ∀ o, p o = true → o.isClose = true)
    (l : List Op) (hl : ∀ o ∈ l, o.isClose = false) : l.countP p = 0 := by
  rw [List.countP_eq_zero]
  intro o ho hpo
  have := hp o hpo
  rw [hl o ho] at this
  exact Bool.false_ne_true this

theorem isCloseDone_isClose (o : Op) (h : o.isCloseDone = true) : o.isClose = true := by
  cases o <;> simp_all [Op.isCloseDone, Op.isClose]

theorem isCloseTwilio_isClose (o : Op) (h : o.isCloseTwilio = true) : o.isClose = true := by
  cases o <;> simp_all [Op.isCloseTwilio, Op.isClose]

theorem isCloseOpenAI_isClose (o : Op) (h : o.isCloseOpenAI = true) : o.isClose = true := by
  cases o <;> simp_all [Op.isCloseOpenAI, Op.isClose]

theorem step_consistent (s : Session) (e : Sched) (h : s.Consistent) : (step s e).Consistent := by
  obtain ⟨h1, h2, h3, h4, h5, h6⟩ := h
  cases e with
  | inbound r w =>
    by_cases hr : s.inbound = Task.running
    · have hne : s.inbound ≠ Task.exited := by rw [hr]; decide
      have hd0 : s.doneClosed = 0 := by rw [h2, if_neg hne]
      have hnr : s.returned = false := by
        cases hret : s.returned with
        | false => rfl
        | true => have := h6 hret; omega
      have c1 := countP_eq_zero_of_noClose _ isCloseDone_isClose _
        (twilioIteration_noClose s.streamSid r w)
      have c2 := countP_eq_zero_of_noClose _ isCloseTwilio_isClose _
        (twilioIteration_noClose s.streamSid r w)
      have c3 := countP_eq_zero_of_noClose _ isCloseOpenAI_isClose _
        (twilioIteration_noClose s.streamSid r w)
      cases hx : (twilioIteration s.streamSid r w).exit with
      | false =>
        simp [Session.Consistent, step, stepOps, hr, hx, List.countP_append, c1, c2, c3, h3, h4,
          h5, hd0, hnr]
      | true =>
        simp [Session.Consistent, step, stepOps, hr, hx, List.countP_append, c1, c2, c3, h3, h4,
          h5, hd0, hnr, Op.isCloseDone, Op.isCloseTwilio, Op.isCloseOpenAI]
    · simp only [step, hr, if_false]
      exact ⟨h1, h2, h3, h4, h5, h6⟩
  | outboundSelect =>
    simp only [step]
    split_ifs <;> exact ⟨h1, h2, h3, h4, h5, h6⟩
  | outbound r w =>
    by_cases hr : s.outbound = Task.reading
    · have c1 := countP_eq_zero_of_noClose _ isCloseDone_isClose _
        (openaiIteration_noClose s.streamSid r w)
      have c2 := countP_eq_zero_of_noClose _ isCloseTwilio_isClose _
        (openaiIteration_noClose s.streamSid r w)
      have c3 := countP_eq_zero_of_noClose _ isCloseOpenAI_isClose _
        (openaiIteration_noClose s.streamSid r w)
      simp only [step, stepOps, hr, if_true]
      refine ⟨h1, h2, ?_, ?_, ?_, h6⟩
      · simp [List.countP_append, c1, h3]
      · simp [List.countP_append, c2, h4]
      · simp [List.countP_append, c3, h5]
    · simp only [step, hr, if_false]
      exact ⟨h1, h2, h3, h4, h5, h6⟩
  | orchestrator =>
    by_cases hc : (!s.returned && decide (0 < s.doneClosed)) = true
    · have hc2 := hc
      simp only [Bool.and_eq_true, Bool.not_eq_true_eq_eq_false, Bool.not_eq_eq_eq_not,
        Bool.not_true, decide_eq_true_eq] at hc2
      have hd1 : s.doneClosed = 1 := by
        rw [h2] at hc2 ⊢
        split_ifs at hc2 ⊢
        · rfl
        · omega
      simp only [step, stepOps, hc, if_true]
      refine ⟨h1, h2, ?_, ?_, ?_, fun _ => hd1⟩
      · simp [List.countP_append, h3, Op.isCloseDone]
      · simp [List.countP_append, h4, hc2.1, Op.isCloseTwilio]
      · simp [List.countP_append, h5, hc2.1, Op.isCloseOpenAI]
    · simp only [step, hc, Bool.false_eq_true, if_false]
      exact ⟨h1, h2, h3, h4, h5, h6⟩

theorem run_consistent (s : Session) (sched : List Sched) (h : s.Consistent) :
    (run s sched).Consistent := by
  induction sched generalizing s with
  | nil => exact h
  | cons e es ih => exact ih _ (step_consistent s e h)

theorem handleMediaStream_consistent (sched : List Sched) :
    (handleMediaStream true true true sched).Consistent := by
  simp only [handleMediaStream, sendSessionUpdate, Bool.not_true, Bool.false_eq_true, if_false]
  apply run_consistent
  simp [Session.Consistent, started, Op.isCloseDone, Op.isCloseTwilio, Op.isCloseOpenAI]

theorem openaiIteration_exit (streamSid : String) (r : OpenAIRead) (writeOk : Bool) :
    (openaiIteration streamSid r writeOk).exit = outboundFault (r, writeOk) := by
  cases r with
  | readErr => rfl
  | badJSON => rfl
  | msg response =>
    by_cases hc : ((index response "type").eqString "response.audio.delta"
        && (index response "delta").notNil) = true
    · cases hd : DecodeString (index response "delta").assertString.1 with
      | none => simp [openaiIteration, outboundFault, hc, hd]
      | some audioData =>
        cases writeOk <;> simp [openaiIteration, outboundFault, hc, hd]
    · have hc2 : ((index response "type").eqString "response.audio.delta"
          && (index response "delta").notNil) = false := by simpa using hc
      simp [openaiIteration, outboundFault, hc, hc2]

theorem step_outbound_task (s : Session) (r : OpenAIRead) (writeOk : Bool)
    (h : s.outbound = Task.reading) :
    (step s (Sched.outbound r writeOk)).outbound =
      if outboundFault (r, writeOk) then Task.exited else Task.running := by
  simp [step, h, openaiIteration_exit]

/-- C4 (amended). Teardown follows the Inbound Relay: in a started session
under any schedule, `done` has been closed exactly once if the Inbound Relay has
exited and never otherwise; `handleMediaStream` has returned only after that, and
then each link has been closed exactly once (never before it returns); once the
Inbound Relay has exited, the orchestrator returns as soon as it runs, with each
link closed exactly once; while the Inbound Relay is running the orchestrator
keeps waiting. The Outbound Relay, when the read it waits in returns, exits if
that iteration is a link fault (the read failed, or the write of a media frame
failed) and is back at its `select` otherwise; in particular it exits on a read
failure and on a failed write of a frame it has to forward; and no step of the
Outbound Relay, such a fault included, fires the signal, makes
`handleMediaStream` return or closes anything. -/
theorem teardown_follows_inbound_exit (sched : List Sched) (r : OpenAIRead) (writeOk : Bool) :
    ((handleMediaStream true true true sched).doneClosed = 1 ↔
        (handleMediaStream true true true sched).inbound = Task.exited) ∧
      (handleMediaStream true true true sched).doneClosed ≤ 1 ∧
      (handleMediaStream true true true sched).trace.countP Op.isCloseDone =
        (handleMediaStream true true true sched).doneClosed ∧
      ((handleMediaStream true true true sched).returned = true →
        (handleMediaStream true true true sched).inbound = Task.exited ∧
        (handleMediaStream true true true sched).trace.countP Op.isCloseTwilio = 1 ∧
        (handleMediaStream true true true sched).trace.countP Op.isCloseOpenAI = 1) ∧
      ((handleMediaStream true true true sched).returned = false →
        (handleMediaStream true true true sched).trace.countP Op.isCloseTwilio = 0 ∧
        (handleMediaStream true true true sched).trace.countP Op.isCloseOpenAI = 0) ∧
      ((handleMediaStream true true true sched).inbound = Task.exited →
        (step (handleMediaStream true true true sched) Sched.orchestrator).returned = true ∧
        (step (handleMediaStream true true true sched) Sched.orchestrator).trace.countP
          Op.isCloseTwilio = 1 ∧
        (step (handleMediaStream true true true sched) Sched.orchestrator).trace.countP
          Op.isCloseOpenAI = 1) ∧
      ((handleMediaStream true true true sched).inbound = Task.running →
        step (handleMediaStream true true true sched) Sched.orchestrator =
          handleMediaStream true true true sched) ∧
      ((step (handleMediaStream true true true sched) (Sched.outbound r writeOk)).doneClosed =
          (handleMediaStream true true true sched).doneClosed ∧
        (step (handleMediaStream true true true sched) (Sched.outbound r writeOk)).returned =
          (handleMediaStream true true true sched).returned ∧
        (step (handleMediaStream true true true sched) (Sched.outbound r writeOk)).inbound =
          (handleMediaStream true true true sched).inbound ∧
        (step (handleMediaStream true true true sched) (Sched.outbound r writeOk)).trace.countP
            Op.isClose =
          (handleMediaStream true true true sched).trace.countP Op.isClose) ∧
      ((step (handleMediaStream true true true sched) Sched.outboundSelect).doneClosed =
          (handleMediaStream true true true sched).doneClosed ∧
        (step (handleMediaStream true true true sched) Sched.outboundSelect).returned =
          (handleMediaStream true true true sched).returned ∧
        (step (handleMediaStream true true true sched) Sched.outboundSelect).inbound =
          (handleMediaStream true true true sched).inbound ∧
        (step (handleMediaStream true true true sched) Sched.outboundSelect).trace =
          (handleMediaStream true true true sched).trace) ∧
      ((handleMediaStream true true true sched).outbound = Task.reading →
        (step (handleMediaStream true true true sched) (Sched.outbound r writeOk)).outbound =
          (if outboundFault (r, writeOk) then Task.exited else Task.running)) ∧
      ((handleMediaStream true true true sched).outbound = Task.reading →
        (step (handleMediaStream true true true sched)
          (Sched.outbound OpenAIRead.readErr writeOk)).outbound = Task.exited) ∧
      (∀ response audioData,
        (handleMediaStream true true true sched).outbound = Task.reading →
        index response "type" = JVal.str "response.audio.delta" →
        index response "delta" ≠ JVal.null →
        DecodeString (index response "delta").assertString.1 = some audioData →
        (step (handleMediaStream true true true sched)
          (Sched.outbound (OpenAIRead.msg response) false)).outbound = Task.exited ∧
        (step (handleMediaStream true true true sched)
          (Sched.outbound (OpenAIRead.msg response) true)).outbound = Task.running) := by
  have hc := handleMediaStream_consistent sched
  have hc2 := step_consistent _ Sched.orchestrator hc
  generalize handleMediaStream true true true sched = s at hc hc2
  obtain ⟨h1, h2, h3, h4, h5, h6⟩ := hc
  obtain ⟨_, _, _, k4, k5, _⟩ := hc2
  have hiff : s.doneClosed = 1 ↔ s.inbound = Task.exited := by
    rw [h2]; split_ifs with h <;> simp [h]
  refine ⟨hiff, ?_, h3, ?_, ?_, ?_, ?_, ?_, ?_, ?_, ?_, ?_⟩
  · rw [h2]; split_ifs <;> omega
  · intro hr
    exact ⟨hiff.1 (h6 hr), by rw [h4, hr]; rfl, by rw [h5, hr]; rfl⟩
  · intro hr
    exact ⟨by rw [h4, hr]; rfl, by rw [h5, hr]; rfl⟩
  · intro hin
    have hd : s.doneClosed = 1 := hiff.2 hin
    have hret : (step s Sched.orchestrator).returned = true := by
      cases hr : s.returned <;> simp [step, hr, hd]
    exact ⟨hret, by rw [k4, hret]; rfl, by rw [k5, hret]; rfl⟩
  · intro hin
    have hd : s.doneClosed = 0 := by rw [h2, hin]; rfl
    simp [step, hd]
  · refine ⟨?_, ?_, ?_, ?_⟩
    · simp only [step]; split_ifs <;> rfl
    · simp only [step]; split_ifs <;> rfl
    · simp only [step]; split_ifs <;> rfl
    · rw [step_trace, List.countP_append]
      have : (stepOps s (Sched.outbound r writeOk)).countP Op.isClose = 0 := by
        simp only [stepOps]
        split_ifs
        · exact countP_eq_zero_of_noClose _ (fun _ h => h) _
            (openaiIteration_noClose s.streamSid r writeOk)
        · rfl
      omega
  · refine ⟨?_, ?_, ?_, ?_⟩ <;> simp only [step] <;> split_ifs <;> rfl
  · exact step_outbound_task s r writeOk
  · intro hread
    rw [step_outbound_task s _ _ hread]
    rfl
  · intro response audioData hread hty hdelta hdec
    have hf : ∀ w, outboundFault (OpenAIRead.msg response, w) = !w := by
      intro w
      have h1 : (index response "type").eqString "response.audio.delta" = true :=
        (eqString_iff _ _).2 hty
      have h2 : (index response "delta").notNil = true := (notNil_iff _).2 hdelta
      simp [outboundFault, h1, h2, hdec]
    rw [step_outbound_task s _ _ hread, step_outbound_task s _ _ hread, hf, hf]
    exact ⟨rfl, rfl⟩

/-- C4, counterexample. The Outbound Relay detects a read failure on the AI Link
while the Telephony Link is healthy: the relay has exited, yet `done` is not
closed, and the orchestrator, run afterwards, is still waiting and has closed
neither link. The same happens when the Outbound Relay fails to write the frame
for the delta "QUJD" to the Telephony Link. -/
theorem outbound_fault_does_not_signal :
    ((handleMediaStream true true true
        [Sched.outboundSelect, Sched.outbound OpenAIRead.readErr true,
          Sched.orchestrator]).outbound = Task.exited ∧
      (handleMediaStream true true true
        [Sched.outboundSelect, Sched.outbound OpenAIRead.readErr true,
          Sched.orchestrator]).inbound = Task.running ∧
      (handleMediaStream true true true
        [Sched.outboundSelect, Sched.outbound OpenAIRead.readErr true,
          Sched.orchestrator]).doneClosed = 0 ∧
      (handleMediaStream true true true
        [Sched.outboundSelect, Sched.outbound OpenAIRead.readErr true,
          Sched.orchestrator]).returned = false ∧
      (handleMediaStream true true true
        [Sched.outboundSelect, Sched.outbound OpenAIRead.readErr true,
          Sched.orchestrator]).trace.countP Op.isClose = 0) ∧
    ((handleMediaStream true true true
        [Sched.outboundSelect,
          Sched.outbound (OpenAIRead.msg [("type", JVal.str "response.audio.delta"),
            ("delta", JVal.str "QUJD")]) false,
          Sched.orchestrator]).outbound = Task.exited ∧
      (handleMediaStream true true true
        [Sched.outboundSelect,
          Sched.outbound (OpenAIRead.msg [("type", JVal.str "response.audio.delta"),
            ("delta", JVal.str "QUJD")]) false,
          Sched.orchestrator]).doneClosed = 0 ∧
      (handleMediaStream true true true
        [Sched.outboundSelect,
          Sched.outbound (OpenAIRead.msg [("type", JVal.str "response.audio.delta"),
            ("delta", JVal.str "QUJD")]) false,
          Sched.orchestrator]).returned = false ∧
      (handleMediaStream true true true
        [Sched.outboundSelect,
          Sched.outbound (OpenAIRead.msg [("type", JVal.str "response.audio.delta"),
            ("delta", JVal.str "QUJD")]) false,
          Sched.orchestrator]).trace.countP Op.isClose = 0) := by
  decide

/-! ## Set-up -/

theorem openAICommands_append (a b : List Op) :
    openAICommands (a ++ b) = openAICommands a ++ openAICommands b := by
  induction a with
  | nil => rfl
  | cons o os ih => cases o <;> simp [openAICommands, ih]

theorem openAICommands_of_noWrite (l : List Op)
    (h : ∀ o ∈ l, ∀ v ok, o ≠ Op.writeOpenAI v ok) : openAICommands l = [] := by
  induction l with
  | nil => rfl
  | cons o os ih =>
    have ht := ih fun o ho => h o (List.mem_cons_of_mem _ ho)
    cases o with
    | writeOpenAI v ok => exact absurd rfl (h _ (List.mem_cons_self _ _) v ok)
    | _ => simpa [openAICommands] using ht

theorem openAICommands_logEvents (response : List (String × JVal)) :
    openAICommands (logEvents response) = [] := by
  apply openAICommands_of_noWrite
  intro o ho v ok
  rw [logEvents_mem response o ho]
  simp

theorem openaiIteration_commands (streamSid : String) (r : OpenAIRead) (writeOk : Bool) :
    openAICommands (openaiIteration streamSid r writeOk).ops = [] := by
  cases r with
  | readErr => rfl
  | badJSON => rfl
  | msg response =>
    by_cases hc : ((index response "type").eqString "response.audio.delta"
        && (index response "delta").notNil) = true
    · cases hd : DecodeString (index response "delta").assertString.1 with
      | none =>
        simp [openaiIteration, hc, hd, openAICommands, openAICommands_append,
          openAICommands_logEvents]
      | some audioData =>
        cases writeOk <;>
          simp [openaiIteration, hc, hd, openAICommands, openAICommands_append,
            openAICommands_logEvents]
    · simp [openaiIteration, hc, openAICommands, openAICommands_logEvents]

theorem twilioIteration_commands (streamSid : String) (r : TwilioRead) (writeOk : Bool) :
    ∀ v ∈ openAICommands (twilioIteration streamSid r writeOk).ops,
      v.field "type" = JVal.str "input_audio_buffer.append" := by
  cases r with
  | readErr => simp [twilioIteration, openAICommands]
  | badJSON => simp [twilioIteration, openAICommands]
  | msg m =>
    by_cases h1 : m.Event = "media"
    · cases writeOk <;>
        simp [twilioIteration, h1, openAICommands, JVal.field, index, List.lookup]
    · by_cases h2 : m.Event = "start" <;> simp [twilioIteration, h1, h2, openAICommands]

theorem stepOps_commands (s : Session) (e : Sched) :
    ∀ v ∈ openAICommands (stepOps s e),
      v.field "type" = JVal.str "input_audio_buffer.append" := by
  intro v hv
  cases e with
  | inbound r w =>
    simp only [stepOps] at hv
    split_ifs at hv
    · rw [openAICommands_append] at hv
      simp only [openAICommands, List.append_nil] at hv
      exact twilioIteration_commands _ _ _ v hv
    · exact twilioIteration_commands _ _ _ v hv
    · simp [openAICommands] at hv
  | outboundSelect => simp [stepOps, openAICommands] at hv
  | outbound r w =>
    simp only [stepOps] at hv
    split_ifs at hv
    · simp [openaiIteration_commands] at hv
    · simp [openAICommands] at hv
  | orchestrator =>
    simp only [stepOps] at hv
    split_ifs at hv <;> simp [openAICommands] at hv

theorem runOps_commands (s : Session) (sched : List Sched) :
    ∀ v ∈ openAICommands (runOps s sched),
      v.field "type" = JVal.str "input_audio_buffer.append" := by
  induction sched generalizing s with
  | nil => simp [runOps, openAICommands]
  | cons e es ih =>
    intro v hv
    rw [runOps, openAICommands_append, List.mem_append] at hv
    rcases hv with hv | hv
    · exact stepOps_commands s e v hv
    · exact ih _ v hv

/-- C9. Set-up fault aborts the session and the configuration comes first. If the
write of the Session Configuration fails, `handleMediaStream` returns with
neither relay started, whatever the schedule, and the only link operation of the
session is that failed write. If it succeeds, the first link operation of the
session is the write of the configuration, the configuration is the first value
handed to the AI Link, every later value handed to the AI Link is an append
command, and exactly one Session Configuration message is written in the
session. -/
theorem setup_fault_aborts_and_config_first (sched : List Sched) :
    (handleMediaStream true true false sched).inbound = Task.notStarted ∧
      (handleMediaStream true true false sched).outbound = Task.notStarted ∧
      (handleMediaStream true true false sched).returned = true ∧
      handleMediaStream true true false sched = handleMediaStream true true false [] ∧
      (handleMediaStream true true false sched).trace.filter Op.touchesLink =
        [Op.writeOpenAI sessionUpdateValue.toJSON false] ∧
      ((handleMediaStream true true true sched).trace.filter Op.touchesLink).head? =
        some (Op.writeOpenAI sessionUpdateValue.toJSON true) ∧
      (openAICommands (handleMediaStream true true true sched).trace).head? =
        some sessionUpdateValue.toJSON ∧
      (∀ v ∈ (openAICommands (handleMediaStream true true true sched).trace).tail,
        v.field "type" = JVal.str "input_audio_buffer.append") ∧
      (openAICommands (handleMediaStream true true true sched).trace).countP isSessionUpdate
        = 1 := by
  have htr : (handleMediaStream true true true sched).trace =
      [Op.log "Client connected", Op.log "Sending session update: %+v",
        Op.writeOpenAI sessionUpdateValue.toJSON true] ++
      runOps (started [Op.log "Client connected", Op.log "Sending session update: %+v",
        Op.writeOpenAI sessionUpdateValue.toJSON true]) sched := by
    simp only [handleMediaStream, sendSessionUpdate, Bool.not_true, Bool.false_eq_true, if_false,
      run_trace]
    rfl
  refine ⟨rfl, rfl, rfl, rfl, rfl, ?_, ?_, ?_, ?_⟩
  · rw [htr]; rfl
  · rw [htr]; rfl
  · intro v hv
    rw [htr, openAICommands_append] at hv
    exact runOps_commands _ _ v hv
  · rw [htr, openAICommands_append, List.countP_append]
    have h0 : (openAICommands (runOps (started [Op.log "Client connected",
        Op.log "Sending session update: %+v",
        Op.writeOpenAI sessionUpdateValue.toJSON true]) sched)).countP isSessionUpdate = 0 := by
      rw [List.countP_eq_zero]
      intro v hv
      have := runOps_commands _ _ v hv
      simp [isSessionUpdate, this, JVal.eqString]
    rw [h0]
    rfl

/-! ## base64: decoding and re-encoding -/

theorem decodeMap_lt (c : Char) (h : decodeMap c ≠ 0xff) : decodeMap c < 64 := by
  unfold decodeMap at h ⊢
  split_ifs at h ⊢ with hc
  · exact hc
  · exact absurd rfl h

theorem encode_decodeMap (c : Char) (h : decodeMap c ≠ 0xff) : encode (decodeMap c) = c := by
  unfold decodeMap at h ⊢
  split_ifs at h ⊢ with hc
  · have hl : encodeStd.indexOf c < encodeStd.length := by
      have : encodeStd.length = 64 := by decide
      omega
    unfold encode
    rw [List.getD_eq_getElem _ _ hl]
    exact List.getElem_indexOf hl
  · exact absurd rfl h

theorem decodeMap_encode (v : Nat) (h : v < 64) : decodeMap (encode v) = v := by
  interval_cases v <;> decide

theorem lor4 (v0 v1 v2 v3 : Nat) (h1 : v1 < 64) (h2 : v2 < 64) (h3 : v3 < 64) :
    v0 <<< 18 ||| v1 <<< 12 ||| v2 <<< 6 ||| v3 = v0 * 262144 + v1 * 4096 + v2 * 64 + v3 := by
  simp only [Nat.shiftLeft_eq]
  have e1 : v0 * 2 ^ 18 ||| v1 * 2 ^ 12 = 2 ^ 18 * v0 + v1 * 2 ^ 12 := by
    rw [Nat.mul_add_lt_is_or (by omega) v0, Nat.mul_comm]
  have e2 : 2 ^ 18 * v0 + v1 * 2 ^ 12 ||| v2 * 2 ^ 6 = 2 ^ 12 * (v0 * 64 + v1) + v2 * 2 ^ 6 := by
    rw [Nat.mul_add_lt_is_or (by omega) (v0 * 64 + v1)]
    congr 1
    omega
  have e3 : 2 ^ 12 * (v0 * 64 + v1) + v2 * 2 ^ 6 ||| v3 =
      2 ^ 6 * ((v0 * 64 + v1) * 64 + v2) + v3 := by
    rw [Nat.mul_add_lt_is_or (by omega) ((v0 * 64 + v1) * 64 + v2)]
    congr 1
    omega
  rw [e1, e2, e3]
  omega

theorem lor3 (b0 b1 b2 : Nat) (h1 : b1 < 256) (h2 : b2 < 256) :
    b0 <<< 16 ||| b1 <<< 8 ||| b2 = b0 * 65536 + b1 * 256 + b2 := by
  simp only [Nat.shiftLeft_eq]
  have e1 : b0 * 2 ^ 16 ||| b1 * 2 ^ 8 = 2 ^ 16 * b0 + b1 * 2 ^ 8 := by
    rw [Nat.mul_add_lt_is_or (by omega) b0, Nat.mul_comm]
  have e2 : 2 ^ 16 * b0 + b1 * 2 ^ 8 ||| b2 = 2 ^ 8 * (b0 * 256 + b1) + b2 := by
    rw [Nat.mul_add_lt_is_or (by omega) (b0 * 256 + b1)]
    congr 1
    omega
  rw [e1, e2]
  omega

theorem and63 (x : Nat) : x &&& 0x3F = x % 64 := Nat.and_pow_two_sub_one_eq_mod x 6

theorem decodeMap_pad : decodeMap padChar = 0xff := by decide

theorem isNewline_pad : isNewline padChar = false := by decide

theorem quantum_shape (src : List Char) (hnl : ∀ c ∈ src, isNewline c = false) (hne : src ≠ [])
    (dbuf : List Nat) (dlen : Nat) (rest : List Char)
    (h : decodeQuantumLoop 0 [0, 0, 0, 0] src = some (dbuf, dlen, rest)) :
    (∃ c0 c1 c2 c3, src = c0 :: c1 :: c2 :: c3 :: rest ∧ decodeMap c0 ≠ 0xff ∧
        decodeMap c1 ≠ 0xff ∧ decodeMap c2 ≠ 0xff ∧ decodeMap c3 ≠ 0xff ∧
        dbuf = [decodeMap c0, decodeMap c1, decodeMap c2, decodeMap c3] ∧ dlen = 4) ∨
      (∃ c0 c1 c2, src = [c0, c1, c2, padChar] ∧ rest = [] ∧ decodeMap c0 ≠ 0xff ∧
        decodeMap c1 ≠ 0xff ∧ decodeMap c2 ≠ 0xff ∧
        dbuf = [decodeMap c0, decodeMap c1, decodeMap c2, 0] ∧ dlen = 3) ∨
      (∃ c0 c1, src = [c0, c1, padChar, padChar] ∧ rest = [] ∧ decodeMap c0 ≠ 0xff ∧
        decodeMap c1 ≠ 0xff ∧ dbuf = [decodeMap c0, decodeMap c1, 0, 0] ∧ dlen = 2) := by
  rcases src with _ | ⟨c0, t0⟩
  · exact absurd rfl hne
  have n0 : isNewline c0 = false := hnl c0 (by simp)
  by_cases h0 : decodeMap c0 = 0xff
  · exfalso
    by_cases p0 : c0 = padChar
    · subst p0
      simp [decodeQuantumLoop, decodeMap_pad, isNewline_pad] at h
    · simp [decodeQuantumLoop, h0, n0, p0] at h
  rcases t0 with _ | ⟨c1, t1⟩
  · simp [decodeQuantumLoop, h0] at h
  have n1 : isNewline c1 = false := hnl c1 (by simp)
  by_cases h1 : decodeMap c1 = 0xff
  · exfalso
    by_cases p1 : c1 = padChar
    · subst p1
      simp [decodeQuantumLoop, h0, decodeMap_pad, isNewline_pad] at h
    · simp [decodeQuantumLoop, h0, h1, n1, p1] at h
  rcases t1 with _ | ⟨c2, t2⟩
  · simp [decodeQuantumLoop, h0, h1] at h
  have n2 : isNewline c2 = false := hnl c2 (by simp)
  by_cases h2 : decodeMap c2 = 0xff
  · right; right
    by_cases p2 : c2 = padChar
    · subst p2
      rcases t2 with _ | ⟨c3, t3⟩
      · simp [decodeQuantumLoop, h0, h1, decodeMap_pad, isNewline_pad, skipNewlines] at h
      have n3 : isNewline c3 = false := hnl c3 (by simp)
      by_cases p3 : c3 = padChar
      · subst p3
        rcases t3 with _ | ⟨c4, t4⟩
        · simp [decodeQuantumLoop, h0, h1, decodeMap_pad, isNewline_pad, skipNewlines] at h
          obtain ⟨hd, hl, hr⟩ := h
          exact ⟨c0, c1, rfl, hr, h0, h1, hd.symm, hl.symm⟩
        · have n4 : isNewline c4 = false := hnl c4 (by simp)
          simp [decodeQuantumLoop, h0, h1, decodeMap_pad, isNewline_pad, skipNewlines, n4] at h
      · simp [decodeQuantumLoop, h0, h1, decodeMap_pad, isNewline_pad, skipNewlines, n3, p3] at h
    · simp [decodeQuantumLoop, h0, h1, h2, n2, p2] at h
  rcases t2 with _ | ⟨c3, t3⟩
  · simp [decodeQuantumLoop, h0, h1, h2] at h
  have n3 : isNewline c3 = false := hnl c3 (by simp)
  by_cases h3 : decodeMap c3 = 0xff
  · right; left
    by_cases p3 : c3 = padChar
    · subst p3
      rcases t3 with _ | ⟨c4, t4⟩
      · simp [decodeQuantumLoop, h0, h1, h2, decodeMap_pad, isNewline_pad, skipNewlines] at h
        obtain ⟨hd, hl, hr⟩ := h
        exact ⟨c0, c1, c2, rfl, hr, h0, h1, h2, hd.symm, hl.symm⟩
      · have n4 : isNewline c4 = false := hnl c4 (by simp)
        simp [decodeQuantumLoop, h0, h1, h2, decodeMap_pad, isNewline_pad, skipNewlines, n4] at h
    · simp [decodeQuantumLoop, h0, h1, h2, h3, n3, p3] at h
  · left
    simp [decodeQuantumLoop, h0, h1, h2, h3] at h
    obtain ⟨hd, hl, hr⟩ := h
    exact ⟨c0, c1, c2, c3, by simp [hr], h0, h1, h2, h3, hd.symm, hl.symm⟩

theorem reencode4 (v0 v1 v2 v3 : Nat) (h0 : v0 < 64) (h1 : v1 < 64) (h2 : v2 < 64)
    (h3 : v3 < 64) (out : List Nat) :
    Encode (((v0 <<< 18 ||| v1 <<< 12 ||| v2 <<< 6 ||| v3) >>> 16) % 256 ::
        ((v0 <<< 18 ||| v1 <<< 12 ||| v2 <<< 6 ||| v3) >>> 8) % 256 ::
        ((v0 <<< 18 ||| v1 <<< 12 ||| v2 <<< 6 ||| v3) >>> 0) % 256 :: out) =
      encode v0 :: encode v1 :: encode v2 :: encode v3 :: Encode out := by
  rw [lor4 v0 v1 v2 v3 h1 h2 h3]
  simp only [Encode]
  rw [lor3 _ _ _ (Nat.mod_lt _ (by decide)) (Nat.mod_lt _ (by decide))]
  simp only [and63, Nat.shiftRight_eq_div_pow]
  have e0 : ((v0 * 262144 + v1 * 4096 + v2 * 64 + v3) / 2 ^ 16 % 256 * 65536 +
      (v0 * 262144 + v1 * 4096 + v2 * 64 + v3) / 2 ^ 8 % 256 * 256 +
      (v0 * 262144 + v1 * 4096 + v2 * 64 + v3) / 2 ^ 0 % 256) =
      v0 * 262144 + v1 * 4096 + v2 * 64 + v3 := by omega
  rw [e0]
  have a0 : (v0 * 262144 + v1 * 4096 + v2 * 64 + v3) / 2 ^ 18 % 64 = v0 := by omega
  have a1 : (v0 * 262144 + v1 * 4096 + v2 * 64 + v3) / 2 ^ 12 % 64 = v1 := by omega
  have a2 : (v0 * 262144 + v1 * 4096 + v2 * 64 + v3) / 2 ^ 6 % 64 = v2 := by omega
  have a3 : (v0 * 262144 + v1 * 4096 + v2 * 64 + v3) % 64 = v3 := by omega
  rw [a0, a1, a2, a3]

theorem reencode3 (v0 v1 v2 : Nat) (h0 : v0 < 64) (h1 : v1 < 64) (h2 : v2 < 64)
    (hz : ((v0 <<< 18 ||| v1 <<< 12 ||| v2 <<< 6 ||| 0) >>> 0) % 256 = 0) :
    Encode [((v0 <<< 18 ||| v1 <<< 12 ||| v2 <<< 6 ||| 0) >>> 16) % 256,
        ((v0 <<< 18 ||| v1 <<< 12 ||| v2 <<< 6 ||| 0) >>> 8) % 256] =
      [encode v0, encode v1, encode v2, padChar] := by
  rw [lor4 v0 v1 v2 0 h1 h2 (by decide)] at hz ⊢
  simp only [Encode]
  have hl := lor3 ((v0 * 262144 + v1 * 4096 + v2 * 64 + 0) >>> 16 % 256)
    ((v0 * 262144 + v1 * 4096 + v2 * 64 + 0) >>> 8 % 256) 0 (Nat.mod_lt _ (by decide))
    (by decide)
  rw [Nat.or_zero] at hl
  rw [hl]
  simp only [and63, Nat.shiftRight_eq_div_pow] at hz ⊢
  have e0 : ((v0 * 262144 + v1 * 4096 + v2 * 64 + 0) / 2 ^ 16 % 256 * 65536 +
      (v0 * 262144 + v1 * 4096 + v2 * 64 + 0) / 2 ^ 8 % 256 * 256 + 0) =
      v0 * 262144 + v1 * 4096 + v2 * 64 := by omega
  rw [e0]
  have a0 : (v0 * 262144 + v1 * 4096 + v2 * 64) / 2 ^ 18 % 64 = v0 := by omega
  have a1 : (v0 * 262144 + v1 * 4096 + v2 * 64) / 2 ^ 12 % 64 = v1 := by omega
  have a2 : (v0 * 262144 + v1 * 4096 + v2 * 64) / 2 ^ 6 % 64 = v2 := by omega
  rw [a0, a1, a2]

theorem reencode2 (v0 v1 : Nat) (h0 : v0 < 64) (h1 : v1 < 64)
    (hz1 : ((v0 <<< 18 ||| v1 <<< 12 ||| 0 <<< 6 ||| 0) >>> 8) % 256 = 0) :
    Encode [((v0 <<< 18 ||| v1 <<< 12 ||| 0 <<< 6 ||| 0) >>> 16) % 256] =
      [encode v0, encode v1, padChar, padChar] := by
  rw [lor4 v0 v1 0 0 h1 (by decide) (by decide)] at hz1 ⊢
  simp only [Encode]
  simp only [and63, Nat.shiftRight_eq_div_pow, Nat.shiftLeft_eq] at hz1 ⊢
  have a0 : (v0 * 262144 + v1 * 4096 + 0 * 64 + 0) / 2 ^ 16 % 256 * 2 ^ 16 / 2 ^ 18 % 64 = v0 := by
    omega
  have a1 : (v0 * 262144 + v1 * 4096 + 0 * 64 + 0) / 2 ^ 16 % 256 * 2 ^ 16 / 2 ^ 12 % 64 = v1 := by
    omega
  rw [a0, a1]

theorem decodeQuantum_strict_shape (src : List Char) (hnl : ∀ c ∈ src, isNewline c = false)
    (hne : src ≠ []) (q : List Nat) (rest : List Char)
    (h : decodeQuantum true src = some (q, rest)) :
    (∃ c0 c1 c2 c3, src = c0 :: c1 :: c2 :: c3 :: rest ∧
        ∀ out, Encode (q ++ out) = c0 :: c1 :: c2 :: c3 :: Encode out) ∨
      (rest = [] ∧ Encode q = src) := by
  unfold decodeQuantum at h
  cases hl : decodeQuantumLoop 0 [0, 0, 0, 0] src with
  | none => simp [hl] at h
  | some r =>
    obtain ⟨dbuf, dlen, rest1⟩ := r
    rcases quantum_shape src hnl hne dbuf dlen rest1 hl with
      ⟨c0, c1, c2, c3, hs, h0, h1, h2, h3, hd, hn⟩ | ⟨c0, c1, c2, hs, hr, h0, h1, h2, hd, hn⟩ |
      ⟨c0, c1, hs, hr, h0, h1, hd, hn⟩
    · left
      subst hd hn
      simp only [hl, List.getD_cons_zero, List.getD_cons_succ, Option.some.injEq,
        Prod.mk.injEq] at h
      obtain ⟨hq, hrest⟩ := h
      subst hq hrest
      refine ⟨c0, c1, c2, c3, hs, fun out => ?_⟩
      have := reencode4 _ _ _ _ (decodeMap_lt c0 h0) (decodeMap_lt c1 h1) (decodeMap_lt c2 h2)
        (decodeMap_lt c3 h3) out
      simp only [List.cons_append, List.nil_append]
      rw [this, encode_decodeMap c0 h0, encode_decodeMap c1 h1, encode_decodeMap c2 h2,
        encode_decodeMap c3 h3]
    · right
      subst hd hn hr
      simp only [hl, List.getD_cons_zero, List.getD_cons_succ, Bool.true_and] at h
      split_ifs at h with hz
      simp only [Option.some.injEq, Prod.mk.injEq] at h
      obtain ⟨hq, hrest⟩ := h
      subst hq
      refine ⟨hrest.symm, ?_⟩
      have hz2 : ((decodeMap c0 <<< 18 ||| decodeMap c1 <<< 12 ||| decodeMap c2 <<< 6 ||| 0)
          >>> 0) % 256 = 0 := by simpa using hz
      rw [reencode3 _ _ _ (decodeMap_lt c0 h0) (decodeMap_lt c1 h1) (decodeMap_lt c2 h2) hz2,
        encode_decodeMap c0 h0, encode_decodeMap c1 h1, encode_decodeMap c2 h2, hs]
    · right
      subst hd hn hr
      simp only [hl, List.getD_cons_zero, List.getD_cons_succ, Bool.true_and] at h
      split_ifs at h with hz
      simp only [Option.some.injEq, Prod.mk.injEq] at h
      obtain ⟨hq, hrest⟩ := h
      subst hq
      refine ⟨hrest.symm, ?_⟩
      have hz2 : ((decodeMap c0 <<< 18 ||| decodeMap c1 <<< 12 ||| 0 <<< 6 ||| 0) >>> 8)
          % 256 = 0 := by
        simp only [Bool.or_eq_true, decide_eq_true_eq, not_or, ne_eq, Decidable.not_not] at hz
        exact hz.1
      rw [reencode2 _ _ (decodeMap_lt c0 h0) (decodeMap_lt c1 h1) hz2,
        encode_decodeMap c0 h0, encode_decodeMap c1 h1, hs]

theorem decodeLoop_nil (strict : Bool) (fuel : Nat) : decodeLoop strict fuel [] = some [] := by
  cases fuel <;> rfl

theorem decodeLoop_strict_reencode (fuel : Nat) (src : List Char) (bs : List Nat)
    (hnl : ∀ c ∈ src, isNewline c = false) (h : decodeLoop true fuel src = some bs) :
    Encode bs = src := by
  induction fuel generalizing src bs with
  | zero =>
    cases src with
    | nil => simp [decodeLoop] at h; subst h; rfl
    | cons c cs => simp [decodeLoop] at h
  | succ fuel ih =>
    cases src with
    | nil => simp [decodeLoop] at h; subst h; rfl
    | cons c cs =>
      simp only [decodeLoop] at h
      cases hq : decodeQuantum true (c :: cs) with
      | none => simp [hq] at h
      | some r =>
        obtain ⟨q, rest⟩ := r
        cases hr : decodeLoop true fuel rest with
        | none => simp [hq, hr] at h
        | some out =>
          simp only [hq, hr, Option.some.injEq] at h
          subst h
          rcases decodeQuantum_strict_shape (c :: cs) hnl (List.cons_ne_nil _ _) q rest hq with
            ⟨c0, c1, c2, c3, hs, he⟩ | ⟨hrest, he⟩
          · have hnl2 : ∀ x ∈ rest, isNewline x = false := by
              intro x hx
              apply hnl
              rw [hs]
              simp [hx]
            rw [he, ih rest out hnl2 hr, hs]
          · subst hrest
            rw [decodeLoop_nil] at hr
            simp only [Option.some.injEq] at hr
            subst hr
            rw [List.append_nil, he]

theorem decodeQuantum_of_strict (src : List Char) (r : List Nat × List Char)
    (h : decodeQuantum true src = some r) : decodeQuantum false src = some r := by
  unfold decodeQuantum at h ⊢
  cases hl : decodeQuantumLoop 0 [0, 0, 0, 0] src with
  | none => simp [hl] at h
  | some t =>
    obtain ⟨dbuf, dlen, rest⟩ := t
    simp only [hl] at h ⊢
    split at h <;> simp_all

theorem decodeLoop_of_strict (fuel : Nat) (src : List Char) (bs : List Nat)
    (h : decodeLoop true fuel src = some bs) : decodeLoop false fuel src = some bs := by
  induction fuel generalizing src bs with
  | zero =>
    cases src with
    | nil => simpa [decodeLoop] using h
    | cons c cs => simp [decodeLoop] at h
  | succ fuel ih =>
    cases src with
    | nil => simpa [decodeLoop] using h
    | cons c cs =>
      simp only [decodeLoop] at h ⊢
      cases hq : decodeQuantum true (c :: cs) with
      | none => simp [hq] at h
      | some r =>
        obtain ⟨q, rest⟩ := r
        cases hr : decodeLoop true fuel rest with
        | none => simp [hq, hr] at h
        | some out =>
          simp only [hq, hr, Option.some.injEq] at h
          simp [decodeQuantum_of_strict _ _ hq, ih rest out hr, h]

theorem skipNewlines_length (l : List Char) : (skipNewlines l).length ≤ l.length := by
  induction l with
  | nil => simp [skipNewlines]
  | cons c cs ih =>
    simp only [skipNewlines]
    split_ifs
    · simp only [List.length_cons]; omega
    · exact Nat.le_refl _

theorem decodeQuantumLoop_length (cs : List Char) :
    ∀ (c : Char) (j : Nat) (dbuf d : List Nat) (n : Nat) (rest : List Char),
      decodeQuantumLoop j dbuf (c :: cs) = some (d, n, rest) → rest.length ≤ cs.length := by
  induction cs with
  | nil =>
    intro c j dbuf d n rest h
    simp only [decodeQuantumLoop, skipNewlines] at h
    split_ifs at h <;> try (simp at h)
    all_goals (try (split at h <;> simp at h))
    all_goals (try simp [h.2.2.symm])
  | cons c1 cs1 ih =>
    intro c j dbuf d n rest h
    unfold decodeQuantumLoop at h
    by_cases h1 : decodeMap c ≠ 0xff
    · rw [if_pos h1] at h
      by_cases h2 : j + 1 < 4
      · rw [if_pos h2] at h
        have := ih _ _ _ _ _ _ h
        simp only [List.length_cons]; omega
      · rw [if_neg h2] at h
        simp only [Option.some.injEq, Prod.mk.injEq] at h
        rw [← h.2.2]
    · rw [if_neg h1] at h
      by_cases h3 : isNewline c = true
      · rw [if_pos h3] at h
        have := ih _ _ _ _ _ _ h
        simp only [List.length_cons]; omega
      · rw [if_neg h3] at h
        by_cases h4 : c ≠ padChar
        · rw [if_pos h4] at h; simp at h
        · rw [if_neg h4] at h
          have hs := skipNewlines_length (c1 :: cs1)
          rcases j with _ | _ | _ | j
          · simp at h
          · simp at h
          · simp only [] at h
            cases heq : skipNewlines (c1 :: cs1) with
            | nil => simp [heq] at h
            | cons d1 ds1 =>
              have hs2 := skipNewlines_length ds1
              rw [heq] at hs
              simp only [List.length_cons] at hs
              simp only [heq] at h
              split_ifs at h
              simp only [Option.some.injEq, Prod.mk.injEq] at h
              rw [← h.2.2]
              simp only [List.length_cons]
              omega
          · simp only [] at h
            split_ifs at h
            simp only [Option.some.injEq, Prod.mk.injEq] at h
            rw [← h.2.2]
            exact hs

theorem decodeQuantum_length (strict : Bool) (c : Char) (cs : List Char) (q : List Nat)
    (rest : List Char) (h : decodeQuantum strict (c :: cs) = some (q, rest)) :
    rest.length ≤ cs.length := by
  unfold decodeQuantum at h
  cases hl : decodeQuantumLoop 0 [0, 0, 0, 0] (c :: cs) with
  | none => simp [hl] at h
  | some t =>
    obtain ⟨dbuf, dlen, rest1⟩ := t
    have := decodeQuantumLoop_length cs c 0 _ dbuf dlen rest1 hl
    simp only [hl] at h
    split at h
    · simp only [Option.some.injEq, Prod.mk.injEq] at h; rw [← h.2]; exact this
    · simp only [Option.some.injEq, Prod.mk.injEq] at h; rw [← h.2]; exact this
    · split_ifs at h
      simp only [Option.some.injEq, Prod.mk.injEq] at h; rw [← h.2]; exact this
    · split_ifs at h
      simp only [Option.some.injEq, Prod.mk.injEq] at h; rw [← h.2]; exact this

/-- The fuel given by `DecodeStringWith` is never exhausted: any two amounts of
fuel that are at least the length of the input give the same result. -/
theorem decodeLoop_fuel (strict : Bool) (n : Nat) :
    ∀ (fuel1 fuel2 : Nat) (src : List Char), src.length ≤ n → n ≤ fuel1 → n ≤ fuel2 →
      decodeLoop strict fuel1 src = decodeLoop strict fuel2 src := by
  induction n with
  | zero =>
    intro fuel1 fuel2 src hs _ _
    have : src = [] := List.length_eq_zero.1 (Nat.le_zero.1 hs)
    subst this
    rw [decodeLoop_nil, decodeLoop_nil]
  | succ n ih =>
    intro fuel1 fuel2 src hs h1 h2
    cases src with
    | nil => rw [decodeLoop_nil, decodeLoop_nil]
    | cons c cs =>
      obtain ⟨f1, rfl⟩ : ∃ f1, fuel1 = f1 + 1 := ⟨fuel1 - 1, by omega⟩
      obtain ⟨f2, rfl⟩ : ∃ f2, fuel2 = f2 + 1 := ⟨fuel2 - 1, by omega⟩
      simp only [decodeLoop]
      cases hq : decodeQuantum strict (c :: cs) with
      | none => rfl
      | some r =>
        obtain ⟨q, rest⟩ := r
        have hl := decodeQuantum_length strict c cs q rest hq
        simp only [List.length_cons] at hs
        simp only []
        rw [ih f1 f2 rest (by omega) (by omega) (by omega)]

theorem loop_valid4 (v0 v1 v2 v3 : Nat) (h0 : v0 < 64) (h1 : v1 < 64) (h2 : v2 < 64)
    (h3 : v3 < 64) (rest : List Char) :
    decodeQuantumLoop 0 [0, 0, 0, 0] (encode v0 :: encode v1 :: encode v2 :: encode v3 :: rest) =
      some ([v0, v1, v2, v3], 4, rest) := by
  have n0 : v0 ≠ 255 := by omega
  have n1 : v1 ≠ 255 := by omega
  have n2 : v2 ≠ 255 := by omega
  have n3 : v3 ≠ 255 := by omega
  simp [decodeQuantumLoop, decodeMap_encode, h0, h1, h2, h3, n0, n1, n2, n3]

theorem loop_pad1 (v0 v1 v2 : Nat) (h0 : v0 < 64) (h1 : v1 < 64) (h2 : v2 < 64) :
    decodeQuantumLoop 0 [0, 0, 0, 0] [encode v0, encode v1, encode v2, padChar] =
      some ([v0, v1, v2, 0], 3, []) := by
  have n0 : v0 ≠ 255 := by omega
  have n1 : v1 ≠ 255 := by omega
  have n2 : v2 ≠ 255 := by omega
  simp [decodeQuantumLoop, decodeMap_encode, h0, h1, h2, n0, n1, n2, decodeMap_pad,
    isNewline_pad, skipNewlines]

theorem loop_pad2 (v0 v1 : Nat) (h0 : v0 < 64) (h1 : v1 < 64) :
    decodeQuantumLoop 0 [0, 0, 0, 0] [encode v0, encode v1, padChar, padChar] =
      some ([v0, v1, 0, 0], 2, []) := by
  have n0 : v0 ≠ 255 := by omega
  have n1 : v1 ≠ 255 := by omega
  simp [decodeQuantumLoop, decodeMap_encode, h0, h1, n0, n1, decodeMap_pad,
    isNewline_pad, skipNewlines]

theorem decodeQuantum_encode3 (strict : Bool) (b0 b1 b2 : Nat) (h0 : b0 < 256) (h1 : b1 < 256)
    (h2 : b2 < 256) (rest : List Nat) :
    decodeQuantum strict (Encode (b0 :: b1 :: b2 :: rest)) = some ([b0, b1, b2], Encode rest) := by
  simp only [Encode]
  rw [lor3 b0 b1 b2 h1 h2]
  simp only [and63, Nat.shiftRight_eq_div_pow]
  unfold decodeQuantum
  rw [loop_valid4 _ _ _ _ (Nat.mod_lt _ (by decide)) (Nat.mod_lt _ (by decide))
    (Nat.mod_lt _ (by decide)) (Nat.mod_lt _ (by decide))]
  simp only [List.getD_cons_zero, List.getD_cons_succ]
  rw [lor4 _ _ _ _ (Nat.mod_lt _ (by decide)) (Nat.mod_lt _ (by decide))
    (Nat.mod_lt _ (by decide))]
  simp only [Nat.shiftRight_eq_div_pow, Option.some.injEq, Prod.mk.injEq, List.cons.injEq,
    and_true]
  refine ⟨?_, ?_, ?_⟩ <;> omega

theorem decodeQuantum_eq3 (strict : Bool) (src : List Char) (d0 d1 d2 d3 : Nat)
    (rest : List Char) (val : Nat)
    (hl : decodeQuantumLoop 0 [0, 0, 0, 0] src = some ([d0, d1, d2, d3], 3, rest))
    (hval : d0 <<< 18 ||| d1 <<< 12 ||| d2 <<< 6 ||| d3 = val) :
    decodeQuantum strict src =
      if strict && (val >>> 0) % 256 ≠ 0 then none
      else some ([(val >>> 16) % 256, (val >>> 8) % 256], rest) := by
  subst hval
  unfold decodeQuantum
  rw [hl]
  rfl

theorem decodeQuantum_eq2 (strict : Bool) (src : List Char) (d0 d1 d2 d3 : Nat)
    (rest : List Char) (val : Nat)
    (hl : decodeQuantumLoop 0 [0, 0, 0, 0] src = some ([d0, d1, d2, d3], 2, rest))
    (hval : d0 <<< 18 ||| d1 <<< 12 ||| d2 <<< 6 ||| d3 = val) :
    decodeQuantum strict src =
      if strict && ((val >>> 8) % 256 ≠ 0 || (val >>> 0) % 256 ≠ 0) then none
      else some ([(val >>> 16) % 256], rest) := by
  subst hval
  unfold decodeQuantum
  rw [hl]
  rfl

theorem decodeQuantum_encode2 (strict : Bool) (b0 b1 : Nat) (h0 : b0 < 256) (h1 : b1 < 256) :
    decodeQuantum strict (Encode [b0, b1]) = some ([b0, b1], []) := by
  simp only [Encode]
  have hl := lor3 b0 b1 0 h1 (by decide)
  rw [Nat.or_zero] at hl
  rw [hl]
  simp only [and63, Nat.shiftRight_eq_div_pow]
  generalize hv0 : (b0 * 65536 + b1 * 256 + 0) / 2 ^ 18 % 64 = v0
  generalize hv1 : (b0 * 65536 + b1 * 256 + 0) / 2 ^ 12 % 64 = v1
  generalize hv2 : (b0 * 65536 + b1 * 256 + 0) / 2 ^ 6 % 64 = v2
  have k0 : v0 < 64 := by omega
  have k1 : v1 < 64 := by omega
  have k2 : v2 < 64 := by omega
  rw [decodeQuantum_eq3 strict _ v0 v1 v2 0 [] _ (loop_pad1 v0 v1 v2 k0 k1 k2)
    (lor4 v0 v1 v2 0 k1 k2 (by decide))]
  have e2 : (v0 * 262144 + v1 * 4096 + v2 * 64 + 0) >>> 0 % 256 = 0 := by
    simp only [Nat.shiftRight_eq_div_pow]; omega
  have e1 : (v0 * 262144 + v1 * 4096 + v2 * 64 + 0) >>> 8 % 256 = b1 := by
    simp only [Nat.shiftRight_eq_div_pow]; omega
  have e0 : (v0 * 262144 + v1 * 4096 + v2 * 64 + 0) >>> 16 % 256 = b0 := by
    simp only [Nat.shiftRight_eq_div_pow]; omega
  simp only [e2, e1, e0]
  simp

theorem decodeQuantum_encode1 (strict : Bool) (b0 : Nat) (h0 : b0 < 256) :
    decodeQuantum strict (Encode [b0]) = some ([b0], []) := by
  simp only [Encode]
  simp only [and63, Nat.shiftRight_eq_div_pow, Nat.shiftLeft_eq]
  generalize hv0 : b0 * 2 ^ 16 / 2 ^ 18 % 64 = v0
  generalize hv1 : b0 * 2 ^ 16 / 2 ^ 12 % 64 = v1
  have k0 : v0 < 64 := by omega
  have k1 : v1 < 64 := by omega
  rw [decodeQuantum_eq2 strict _ v0 v1 0 0 [] _ (loop_pad2 v0 v1 k0 k1)
    (lor4 v0 v1 0 0 k1 (by decide) (by decide))]
  have e2 : (v0 * 262144 + v1 * 4096 + 0 * 64 + 0) >>> 0 % 256 = 0 := by
    simp only [Nat.shiftRight_eq_div_pow]; omega
  have e1 : (v0 * 262144 + v1 * 4096 + 0 * 64 + 0) >>> 8 % 256 = 0 := by
    simp only [Nat.shiftRight_eq_div_pow]; omega
  have e0 : (v0 * 262144 + v1 * 4096 + 0 * 64 + 0) >>> 16 % 256 = b0 := by
    simp only [Nat.shiftRight_eq_div_pow]; omega
  simp only [e2, e1, e0]
  simp

theorem Encode_ne_nil (b : Nat) (bs : List Nat) : Encode (b :: bs) ≠ [] := by
  rcases bs with _ | ⟨b1, _ | ⟨b2, rest⟩⟩ <;> simp [Encode]

/-- Decoding what the encoder produced gives the bytes back (for either value of
`strict`), with any fuel that covers the input. -/
theorem decodeLoop_Encode (strict : Bool) :
    ∀ (bs : List Nat), (∀ b ∈ bs, b < 256) → ∀ fuel, (Encode bs).length ≤ fuel →
      decodeLoop strict fuel (Encode bs) = some bs
  | [], _, fuel, _ => by simp [Encode, decodeLoop_nil]
  | [b0], hb, fuel, hf => by
    have h0 : b0 < 256 := hb b0 (by simp)
    obtain ⟨f, rfl⟩ : ∃ f, fuel = f + 1 := ⟨fuel - 1, by simp [Encode] at hf; omega⟩
    have hq := decodeQuantum_encode1 strict b0 h0
    cases he : Encode [b0] with
    | nil => exact absurd he (Encode_ne_nil _ _)
    | cons c cs =>
      rw [he] at hq
      simp [decodeLoop, hq, decodeLoop_nil]
  | [b0, b1], hb, fuel, hf => by
    have h0 : b0 < 256 := hb b0 (by simp)
    have h1 : b1 < 256 := hb b1 (by simp)
    obtain ⟨f, rfl⟩ : ∃ f, fuel = f + 1 := ⟨fuel - 1, by simp [Encode] at hf; omega⟩
    have hq := decodeQuantum_encode2 strict b0 b1 h0 h1
    cases he : Encode [b0, b1] with
    | nil => exact absurd he (Encode_ne_nil _ _)
    | cons c cs =>
      rw [he] at hq
      simp [decodeLoop, hq, decodeLoop_nil]
  | b0 :: b1 :: b2 :: rest, hb, fuel, hf => by
    have h0 : b0 < 256 := hb b0 (by simp)
    have h1 : b1 < 256 := hb b1 (by simp)
    have h2 : b2 < 256 := hb b2 (by simp)
    have hr : ∀ b ∈ rest, b < 256 := fun b hbr => hb b (by simp [hbr])
    have hlen : (Encode (b0 :: b1 :: b2 :: rest)).length = (Encode rest).length + 4 := by
      simp [Encode]
    obtain ⟨f, rfl⟩ : ∃ f, fuel = f + 1 := ⟨fuel - 1, by omega⟩
    have hq := decodeQuantum_encode3 strict b0 b1 b2 h0 h1 h2 rest
    have ih := decodeLoop_Encode strict rest hr f (by omega)
    cases he : Encode (b0 :: b1 :: b2 :: rest) with
    | nil => exact absurd he (Encode_ne_nil _ _)
    | cons c cs =>
      rw [he] at hq
      simp [decodeLoop, hq, ih]

theorem decodeQuantum_bytes (strict : Bool) (src : List Char) (q : List Nat) (rest : List Char)
    (h : decodeQuantum strict src = some (q, rest)) : ∀ b ∈ q, b < 256 := by
  unfold decodeQuantum at h
  cases hl : decodeQuantumLoop 0 [0, 0, 0, 0] src with
  | none => simp [hl] at h
  | some t =>
    obtain ⟨dbuf, dlen, rest1⟩ := t
    simp only [hl] at h
    have hm : ∀ x : Nat, x % 256 < 256 := fun x => Nat.mod_lt _ (by decide)
    split at h
    · simp only [Option.some.injEq, Prod.mk.injEq] at h
      rw [← h.1]; simp
    · simp only [Option.some.injEq, Prod.mk.injEq] at h
      rw [← h.1]; simp [hm]
    · split_ifs at h
      simp only [Option.some.injEq, Prod.mk.injEq] at h
      rw [← h.1]; simp [hm]
    · split_ifs at h
      simp only [Option.some.injEq, Prod.mk.injEq] at h
      rw [← h.1]; simp [hm]

theorem decodeLoop_bytes (strict : Bool) (fuel : Nat) (src : List Char) (bs : List Nat)
    (h : decodeLoop strict fuel src = some bs) : ∀ b ∈ bs, b < 256 := by
  induction fuel generalizing src bs with
  | zero =>
    cases src with
    | nil => simp [decodeLoop] at h; subst h; simp
    | cons c cs => simp [decodeLoop] at h
  | succ fuel ih =>
    cases src with
    | nil => simp [decodeLoop] at h; subst h; simp
    | cons c cs =>
      simp only [decodeLoop] at h
      cases hq : decodeQuantum strict (c :: cs) with
      | none => simp [hq] at h
      | some r =>
        obtain ⟨q, rest⟩ := r
        cases hr : decodeLoop strict fuel rest with
        | none => simp [hq, hr] at h
        | some out =>
          simp only [hq, hr, Option.some.injEq] at h
          subst h
          intro b hb
          rcases List.mem_append.1 hb with hb | hb
          · exact decodeQuantum_bytes strict _ q rest hq b hb
          · exact ih rest out hr b hb

/-! ## Outbound Relay: the audio payload -/

/-- C2 (as amended). Outbound audio: for a "response.audio.delta" event whose
delta string `d` is accepted by the relay's base64 decoder, the iteration writes
one media frame whose payload is the standard encoding of the bytes decoded from
`d`; that payload decodes to the same bytes as `d`; and it is character for
character identical to `d` when `d` is canonical, that is, contains no CR or LF
and is accepted by the strict variant of the decoder (no non-zero padding
bits). -/
theorem outbound_audio_reencoded (streamSid : String) (response : List (String × JVal))
    (d : String) (audioData : List Nat) (writeOk : Bool)
    (hty : index response "type" = JVal.str "response.audio.delta")
    (hd : index response "delta" = JVal.str d)
    (hacc : DecodeString d = some audioData) :
    twilioFrames (openaiIteration streamSid (OpenAIRead.msg response) writeOk).ops =
        [JVal.obj [("event", JVal.str "media"), ("streamSid", JVal.str streamSid),
          ("media", JVal.obj [("payload", JVal.str (EncodeToString audioData))])]] ∧
      DecodeString (EncodeToString audioData) = some audioData ∧
      ((DecodeStringWith true d).isSome = true → (∀ c ∈ d.data, isNewline c = false) →
        EncodeToString audioData = d ∧
        twilioFrames (openaiIteration streamSid (OpenAIRead.msg response) writeOk).ops =
          [JVal.obj [("event", JVal.str "media"), ("streamSid", JVal.str streamSid),
            ("media", JVal.obj [("payload", JVal.str d)])]]) := by
  have hframes : twilioFrames (openaiIteration streamSid (OpenAIRead.msg response) writeOk).ops =
      [JVal.obj [("event", JVal.str "media"), ("streamSid", JVal.str streamSid),
        ("media", JVal.obj [("payload", JVal.str (EncodeToString audioData))])]] := by
    rw [openaiIteration_frames]
    have hc : ((index response "type").eqString "response.audio.delta"
        && (index response "delta").notNil) = true := by
      rw [hty, hd]; simp [JVal.eqString, JVal.notNil]
    have hs : (index response "delta").assertString.1 = d := by rw [hd]; rfl
    rw [if_pos hc, hs, hacc]
  refine ⟨hframes, ?_, ?_⟩
  · have hb := decodeLoop_bytes false _ _ _ hacc
    exact decodeLoop_Encode false audioData hb _ (Nat.le_refl _)
  · intro hstrict hnl
    obtain ⟨bs, hbs⟩ := Option.isSome_iff_exists.1 hstrict
    have h1 : decodeLoop false d.data.length d.data = some bs := decodeLoop_of_strict _ _ _ hbs
    have h2 : bs = audioData := by
      have : some bs = some audioData := by rw [← h1]; exact hacc
      exact Option.some.inj this
    subst h2
    have h3 : EncodeToString bs = d := by
      unfold EncodeToString
      rw [decodeLoop_strict_reencode _ _ _ hnl hbs]
    exact ⟨h3, by rw [hframes, h3]⟩

/-- C2, witness: scenario 2 of the specification, delta "SGVsbG8=". -/
theorem outbound_audio_reencoded_witness :
    twilioFrames (openaiIteration "MZ123"
        (OpenAIRead.msg [("type", JVal.str "response.audio.delta"),
          ("delta", JVal.str "SGVsbG8=")]) true).ops =
      [JVal.obj [("event", JVal.str "media"), ("streamSid", JVal.str "MZ123"),
        ("media", JVal.obj [("payload", JVal.str "SGVsbG8=")])]] :=
  ((outbound_audio_reencoded "MZ123"
    [("type", JVal.str "response.audio.delta"), ("delta", JVal.str "SGVsbG8=")]
    "SGVsbG8=" [72, 101, 108, 108, 111] true rfl rfl (by decide)).2.2
    (by decide) (by decide)).2

/-- C2, counterexample. The delta "QR==" is accepted by the decoder (as the byte
65) and re-encoded as "QQ=="; the delta "QUJD" followed by a line feed is accepted
and re-encoded as "QUJD": in both cases the payload written to the Telephony Link
differs from the delta received. -/
theorem outbound_audio_not_identical :
    DecodeString "QR==" = some [65] ∧
      twilioFrames (openaiIteration "MZ123"
        (OpenAIRead.msg [("type", JVal.str "response.audio.delta"),
          ("delta", JVal.str "QR==")]) true).ops =
        [JVal.obj [("event", JVal.str "media"), ("streamSid", JVal.str "MZ123"),
          ("media", JVal.obj [("payload", JVal.str "QQ==")])]] ∧
      "QQ==" ≠ "QR==" ∧
      DecodeString "QUJD\n" = some [65, 66, 67] ∧
      twilioFrames (openaiIteration "MZ123"
        (OpenAIRead.msg [("type", JVal.str "response.audio.delta"),
          ("delta", JVal.str "QUJD\n")]) true).ops =
        [JVal.obj [("event", JVal.str "media"), ("streamSid", JVal.str "MZ123"),
          ("media", JVal.obj [("payload", JVal.str "QUJD")])]] ∧
      "QUJD" ≠ "QUJD\n" :=
  ⟨by decide, rfl, by decide, by decide, rfl, by decide⟩

end Geppetto
